import Mathlib

/-!
Verification of the prompt storage subsystem in src/lib/storage/prompts.ts:
a Deno-KV-backed repository of versioned prompts plus the per-namespace
default-prompt resolver.

Modelling conventions (shallow embedding):
* The Deno KV store is a list of (key, value, versionstamp) entries together
  with a counter supplying fresh versionstamps.  An atomic operation
  (kv.atomic().check(...).set(...).delete(...).commit()) is one AtomicOp value
  run through commitOp: all mutations are applied exactly when every check
  passes, and a failed commit leaves the state untouched (res.ok = false,
  rendered as Option.none).
* The source stores ISO-8601 UTC timestamp strings of fixed length and
  compares them with the string operators; for such strings lexicographic
  order coincides with chronological order, so timestamps are modelled as
  Nat with the numeric order standing for the source's string comparison.
* ulid() and new Date().toISOString() are nondeterministic environment
  inputs; they are passed in as explicit id / now arguments.
* JavaScript truthiness tests on optional strings (if (s) ...) are modelled
  by nonemptiness of an Option String; on optional arrays by nonemptiness.
* Functions that only read the store take the state and return a value (the
  source performs no writes there); mutators return the result paired with
  the successor state, so a conflict result carries the unchanged input state.
* The opaque Deno KV continuation cursor of listPrompts is modelled as a
  skip count into the key-ordered scan; the returned continuation cursor is
  not modelled (no claim concerns it).
-/

/-- The Prompt entity of src/lib/storage/types.ts. -/
structure Prompt where
  id : String
  «namespace» : String
  name : String
  version : Nat
  lang : String
  text : String
  tags : List String
  priority : Int
  isActive : Bool
  isDefault : Bool
  createdAt : Nat
  updatedAt : Nat
  deriving DecidableEq, Repr

/-- PromptCreate: all Prompt fields except id, createdAt, updatedAt. -/
structure PromptCreate where
  «namespace» : String
  name : String
  version : Nat
  lang : String
  text : String
  tags : List String
  priority : Int
  isActive : Bool
  isDefault : Bool
  deriving DecidableEq, Repr

/-- PromptUpdate: a partial patch; every field optional. -/
structure PromptUpdate where
  «namespace» : Option String := none
  name : Option String := none
  version : Option Nat := none
  lang : Option String := none
  text : Option String := none
  tags : Option (List String) := none
  priority : Option Int := none
  isActive : Option Bool := none
  isDefault : Option Bool := none
  deriving DecidableEq, Repr

/-- PromptCriteria for findPromptByCriteria. -/
structure PromptCriteria where
  «namespace» : Option String := none
  name : Option String := none
  version : Option Nat := none
  lang : Option String := none
  tags : Option (List String) := none
  priority : Option Int := none
  deriving DecidableEq, Repr

/-- Keys of the three KV partitions used by prompts.ts:
["prompts", id], ["prompts_by_name", namespace, name, version],
["prompts_default", namespace]. -/
inductive KVKey where
  | prompt (id : String)
  | byName («namespace» name : String) (version : Nat)
  | dflt («namespace» : String)
  deriving DecidableEq, Repr

/-- Values stored by prompts.ts: a full Prompt record (under "prompts") or a
bare id string (under the index and default-mapping partitions). -/
inductive KVValue where
  | prompt (p : Prompt)
  | id (s : String)
  deriving DecidableEq, Repr

/-- One stored KV entry: key, value and its versionstamp. -/
abbrev KVEntry := KVKey × KVValue × Nat

/-- The KV store: entries plus the counter providing fresh versionstamps. -/
structure KVState where
  entries : List KVEntry
  nextStamp : Nat
  deriving DecidableEq, Repr

/-- Point read on a raw entry list (kv.get): value and versionstamp. -/
def entGet (es : List KVEntry) (k : KVKey) : Option (KVValue × Nat) :=
  (es.find? (fun e => e.1 = k)).map (fun e => e.2)

/-- kv.get on the store. -/
def kvGetEntry (s : KVState) (k : KVKey) : Option (KVValue × Nat) :=
  entGet s.entries k

/-- A mutation inside an atomic commit: .set(key, value) or .delete(key). -/
inductive KVMutation where
  | set (k : KVKey) (v : KVValue)
  | del (k : KVKey)
  deriving DecidableEq, Repr

/-- One kv.atomic() operation: versionstamp preconditions (none means the key
must be absent, matching .check with versionstamp null) plus mutations. -/
structure AtomicOp where
  checks : List (KVKey × Option Nat)
  mutations : List KVMutation
  deriving DecidableEq, Repr

/-- A check passes when the key's current versionstamp equals the expected
one (absent keys have no versionstamp). -/
def checkPasses (s : KVState) (c : KVKey × Option Nat) : Bool :=
  ((kvGetEntry s c.1).map (fun e => e.2)) = c.2

/-- Apply one mutation, stamping written keys with the commit's versionstamp. -/
def applyMutation (stamp : Nat) (es : List KVEntry) : KVMutation → List KVEntry
  | .set k v => (k, v, stamp) :: es.filter (fun e => e.1 ≠ k)
  | .del k => es.filter (fun e => e.1 ≠ k)

/-- kv.atomic().commit(): all-or-nothing.  Returns none when a check fails
(res.ok = false), in which case the store is unchanged. -/
def commitOp (s : KVState) (op : AtomicOp) : Option KVState :=
  if op.checks.all (checkPasses s) then
    some ⟨op.mutations.foldl (applyMutation s.nextStamp) s.entries, s.nextStamp + 1⟩
  else
    none

/-- Plain kv.set (unconditional single-key write). -/
def kvSet (s : KVState) (k : KVKey) (v : KVValue) : KVState :=
  ⟨applyMutation s.nextStamp s.entries (.set k v), s.nextStamp + 1⟩

/-- Plain kv.delete. -/
def kvDelete (s : KVState) (k : KVKey) : KVState :=
  ⟨applyMutation s.nextStamp s.entries (.del k), s.nextStamp + 1⟩

/-- Errors surfaced by the repository: the conflict throw of a failed atomic
commit (natural-key collision on create, lost optimistic lock on update). -/
inductive StorageErr where
  | conflict
  deriving DecidableEq, Repr

deriving instance DecidableEq for Except

/-- getPrompt: point lookup of a prompt by id (null when absent). -/
def getPrompt (s : KVState) (id : String) : Option Prompt :=
  match kvGetEntry s (.prompt id) with
  | some (.prompt p, _) => some p
  | _ => none

/-- Typed read of an id-valued entry (kv.get of an index or mapping key). -/
def kvGetId (s : KVState) (k : KVKey) : Option String :=
  match kvGetEntry s k with
  | some (.id i, _) => some i
  | _ => none

/-- Decode one raw entry of the "prompts" partition. -/
def promptDec : KVEntry → Option (String × Prompt)
  | (.prompt i, .prompt p, _) => some (i, p)
  | _ => none

/-- The prefix scan kv.list({prefix: ["prompts"]}): id/record pairs in scan
order. -/
def promptEntries (s : KVState) : List (String × Prompt) :=
  s.entries.filterMap promptDec

/-- Decode one raw entry of the "prompts_by_name" partition. -/
def byNameDec : KVEntry → Option ((String × String × Nat) × String)
  | (.byName ns n v, .id i, _) => some ((ns, n, v), i)
  | _ => none

/-- The prefix scan kv.list({prefix: ["prompts_by_name"]}): natural-key/id
pairs in scan order. -/
def byNameEntries (s : KVState) : List ((String × String × Nat) × String) :=
  s.entries.filterMap byNameDec

/-- The new record assembled by createPrompt: input data plus the generated
id and both timestamps set to now. -/
def mkPrompt (data : PromptCreate) (id : String) (now : Nat) : Prompt :=
  { id := id
    «namespace» := data.«namespace»
    name := data.name
    version := data.version
    lang := data.lang
    text := data.text
    tags := data.tags
    priority := data.priority
    isActive := data.isActive
    isDefault := data.isDefault
    createdAt := now
    updatedAt := now }

/-- The atomic commit built by createPrompt: conditioned on the natural-key
index entry being absent; writes the primary record and the index entry. -/
def createOp (data : PromptCreate) (id : String) (now : Nat) : AtomicOp :=
  { checks := [(.byName data.«namespace» data.name data.version, none)]
    mutations :=
      [.set (.prompt id) (.prompt (mkPrompt data id now)),
       .set (.byName data.«namespace» data.name data.version) (.id id)] }

/-- The merge {...existingPrompt, ...data, id, updatedAt: now} of
updatePrompt: patch fields win, id is forced, createdAt kept, updatedAt
refreshed. -/
def mergePrompt (existing : Prompt) (data : PromptUpdate) (id : String) (now : Nat) : Prompt :=
  { id := id
    «namespace» := data.«namespace».getD existing.«namespace»
    name := data.name.getD existing.name
    version := data.version.getD existing.version
    lang := data.lang.getD existing.lang
    text := data.text.getD existing.text
    tags := data.tags.getD existing.tags
    priority := data.priority.getD existing.priority
    isActive := data.isActive.getD existing.isActive
    isDefault := data.isDefault.getD existing.isDefault
    createdAt := existing.createdAt
    updatedAt := now }

/-- Whether the patch moves the natural key: the disjunction of the source's
nameChanged, namespaceChanged and versionChanged tests (a field counts as
changed when supplied and different from the existing value). -/
def natKeyChanged (existing : Prompt) (data : PromptUpdate) : Bool :=
  (match data.name with | some n => decide (n ≠ existing.name) | none => false) ||
  (match data.«namespace» with | some n => decide (n ≠ existing.«namespace») | none => false) ||
  (match data.version with | some v => decide (v ≠ existing.version) | none => false)

/-- The atomic commit built by updatePrompt from its read: conditioned on the
record's versionstamp being the one read; writes the merged record and, when
the natural key changed, relocates the index entry in the same commit. -/
def updateOp (id : String) (existing : Prompt) (stamp : Nat) (data : PromptUpdate)
    (now : Nat) : AtomicOp :=
  { checks := [(.prompt id, some stamp)]
    mutations :=
      [KVMutation.set (.prompt id) (.prompt (mergePrompt existing data id now))] ++
      (if natKeyChanged existing data then
        [KVMutation.del (.byName existing.«namespace» existing.name existing.version),
         KVMutation.set (.byName (mergePrompt existing data id now).«namespace»
            (mergePrompt existing data id now).name
            (mergePrompt existing data id now).version) (.id id)]
      else []) }

/-- updatePrompt without the default-mapping side effect (lines 76-119 of the
source): read, merge, single conditional atomic commit.  Returns ok none when
the id is absent, the conflict error (state unchanged) when the commit loses
the optimistic-lock race. -/
def updatePromptCore (s : KVState) (id : String) (data : PromptUpdate) (now : Nat) :
    Except StorageErr (Option Prompt) × KVState :=
  match kvGetEntry s (.prompt id) with
  | some (.prompt existing, stamp) =>
      match commitOp s (updateOp id existing stamp data now) with
      | some s' => (.ok (some (mergePrompt existing data id now)), s')
      | none => (.error .conflict, s)
  | _ => (.ok none, s)

/-- The patch { isDefault: false } used to demote a previous default. -/
def flipOff : PromptUpdate := { isDefault := some false }

/-- The demotion step of syncDefaultMapping: if the mapping points at a
different (truthy) id whose record is still flagged default, demote it via
the core update. -/
def syncStep (s : KVState) (ns : String) (id : String) (now : Nat) :
    Except StorageErr Unit × KVState :=
  match kvGetId s (.dflt ns) with
  | some pv =>
      if pv ≠ "" ∧ pv ≠ id then
        match getPrompt s pv with
        | some prev =>
            if prev.isDefault then
              match updatePromptCore s pv flipOff now with
              | (.ok _, s') => (Except.ok (), s')
              | (.error e, s') => (Except.error e, s')
            else (Except.ok (), s)
        | none => (Except.ok (), s)
      else (Except.ok (), s)
  | none => (Except.ok (), s)

/-- syncDefaultMapping(namespace, id): points the default mapping at id and,
if it previously pointed at a different prompt still flagged default, demotes
that prompt first (via updatePrompt with skipDefaultSync, i.e. the core
update). -/
def syncDefaultMapping (s : KVState) (ns : String) (id : String) (now : Nat) :
    Except StorageErr Unit × KVState :=
  match syncStep s ns id now with
  | (.ok _, s₁) => (.ok (), kvSet s₁ (.dflt ns) (.id id))
  | (.error e, s₁) => (.error e, s₁)

/-- createPrompt: one atomic commit of record + index entry conditioned on the
natural key being free; on success with isDefault true, best-effort
default-mapping sync for the record's namespace. -/
def createPrompt (s : KVState) (data : PromptCreate) (id : String) (now : Nat) :
    Except StorageErr Prompt × KVState :=
  match commitOp s (createOp data id now) with
  | none => (.error .conflict, s)
  | some s₁ =>
      if (mkPrompt data id now).isDefault then
        match syncDefaultMapping s₁ (mkPrompt data id now).«namespace» id now with
        | (.ok _, s₂) => (.ok (mkPrompt data id now), s₂)
        | (.error e, s₂) => (.error e, s₂)
      else (.ok (mkPrompt data id now), s₁)

/-- updatePrompt: the core read-merge-commit plus, when the patch sets
isDefault true and the sync is not suppressed, the default-mapping sync. -/
def updatePrompt (s : KVState) (id : String) (data : PromptUpdate) (now : Nat)
    (skipDefaultSync : Bool) : Except StorageErr (Option Prompt) × KVState :=
  match updatePromptCore s id data now with
  | (.ok (some updated), s₁) =>
      if data.isDefault = some true ∧ skipDefaultSync = false then
        match syncDefaultMapping s₁ updated.«namespace» id now with
        | (.ok _, s₂) => (.ok (some updated), s₂)
        | (.error e, s₂) => (.error e, s₂)
      else (.ok (some updated), s₁)
  | other => other

/-- The atomic commit built by deletePrompt from its read: no checks; removes
the primary record and the index entry of the natural key that was read. -/
def deleteOp (id : String) (p : Prompt) : AtomicOp :=
  { checks := []
    mutations := [.del (.prompt id), .del (.byName p.«namespace» p.name p.version)] }

/-- deletePrompt: read the record (false when absent), then one atomic commit
removing record and index entry. -/
def deletePrompt (s : KVState) (id : String) : Bool × KVState :=
  match getPrompt s id with
  | none => (false, s)
  | some p =>
      match commitOp s (deleteOp id p) with
      | some s' => (true, s')
      | none => (false, s)

/-- Truthiness of an optional string (JS: if (s) ...). -/
def strTruthy : Option String → Bool
  | some v => !v.isEmpty
  | none => false

/-- Truthiness of the optional tags array combined with length > 0. -/
def tagsTruthy : Option (List String) → Bool
  | some ts => !ts.isEmpty
  | none => false

/-- The sort keys of listPrompts. -/
inductive SortBy where
  | priority
  | createdAt
  | updatedAt
  deriving DecidableEq, Repr

/-- The sort directions of listPrompts. -/
inductive SortOrder where
  | asc
  | desc
  deriving DecidableEq, Repr

/-- PromptListFilters; limit defaults to 50, sortBy to updatedAt, sortOrder to
desc when absent (JS destructuring defaults). -/
structure PromptListFilters where
  «namespace» : Option String := none
  name : Option String := none
  isActive : Option Bool := none
  tag : Option String := none
  limit : Option Nat := none
  cursor : Option Nat := none
  sortBy : Option SortBy := none
  sortOrder : Option SortOrder := none
  deriving DecidableEq, Repr

/-- The in-memory predicate of listPrompts over name, isActive and tag. -/
def listMatches (flt : PromptListFilters) (p : Prompt) : Bool :=
  (match flt.name with
   | some n => n.isEmpty || decide (p.name = n)
   | none => true) &&
  (match flt.isActive with
   | some b => decide (p.isActive = b)
   | none => true) &&
  (match flt.tag with
   | some t => t.isEmpty || decide (t ∈ p.tags)
   | none => true)

/-- The comparator of listPrompts (dir is 1 for asc, -1 for desc). -/
def listCmp (sb : SortBy) (dir : Int) (a b : Prompt) : Int :=
  match sb with
  | .priority =>
      if a.priority < b.priority then -1 * dir
      else if a.priority > b.priority then 1 * dir
      else 0
  | .createdAt =>
      if a.createdAt < b.createdAt then -1 * dir
      else if a.createdAt > b.createdAt then 1 * dir
      else 0
  | .updatedAt =>
      if a.updatedAt < b.updatedAt then -1 * dir
      else if a.updatedAt > b.updatedAt then 1 * dir
      else 0

/-- The fast-path collection loop of listPrompts: walk index entries, fetch
each record, keep matches, stop at limit. -/
def listLoopFast (s : KVState) (flt : PromptListFilters) (limit : Nat) :
    List ((String × String × Nat) × String) → List Prompt → List Prompt
  | [], items => items
  | e :: rest, items =>
      let items' :=
        match getPrompt s e.2 with
        | some p => if listMatches flt p then items ++ [p] else items
        | none => items
      if limit ≤ items'.length then items' else listLoopFast s flt limit rest items'

/-- The fallback collection loop of listPrompts: walk primary records, filter
namespace and predicates in memory, stop at limit. -/
def listLoopFull (s : KVState) (flt : PromptListFilters) (limit : Nat) :
    List Prompt → List Prompt → List Prompt
  | [], items => items
  | p :: rest, items =>
      if strTruthy flt.«namespace» ∧ some p.«namespace» ≠ flt.«namespace» then
        listLoopFull s flt limit rest items
      else if listMatches flt p = false then
        listLoopFull s flt limit rest items
      else
        let items' := items ++ [p]
        if limit ≤ items'.length then items' else listLoopFull s flt limit rest items'

/-- listPrompts: index fast path when namespace given without name, otherwise
full scan; in-memory sort by the requested key and direction.  The opaque
continuation cursor is modelled as a skip count and the returned cursor is
not modelled. -/
def listCollect (s : KVState) (flt : PromptListFilters) (limit skip : Nat) : List Prompt :=
  if strTruthy flt.«namespace» = true ∧ strTruthy flt.name = false then
    let entries :=
      (((byNameEntries s).filter
          (fun e => decide (some e.1.1 = flt.«namespace»))).drop skip).take limit
    listLoopFast s flt limit entries []
  else
    let scanned := (((promptEntries s).map (fun e => e.2)).drop skip).take (limit * 2)
    listLoopFull s flt limit scanned []

def listPrompts (s : KVState) (flt : PromptListFilters) : List Prompt :=
  let limit := flt.limit.getD 50
  let sb := flt.sortBy.getD .updatedAt
  let so := flt.sortOrder.getD .desc
  let skip := flt.cursor.getD 0
  let dir : Int := if so = .asc then 1 else -1
  (listCollect s flt limit skip).insertionSort (fun a b => listCmp sb dir a b ≤ 0)

/-- Presence test of at least one criterion (lines 240-247 of the source). -/
def hasCriteria (c : PromptCriteria) : Bool :=
  strTruthy c.«namespace» || strTruthy c.name || c.version.isSome ||
  strTruthy c.lang || tagsTruthy c.tags || c.priority.isSome

/-- The predicate of findPromptByCriteria: every supplied criterion must hold. -/
def matchesCrit (c : PromptCriteria) (p : Prompt) : Bool :=
  (match c.«namespace» with
   | some ns => ns.isEmpty || decide (p.«namespace» = ns)
   | none => true) &&
  (match c.name with
   | some n => n.isEmpty || decide (p.name = n)
   | none => true) &&
  (match c.version with
   | some v => decide (p.version = v)
   | none => true) &&
  (match c.lang with
   | some l => l.isEmpty || decide (p.lang = l)
   | none => true) &&
  (match c.tags with
   | some ts => ts.isEmpty || decide (∀ t ∈ ts, t ∈ p.tags)
   | none => true) &&
  (match c.priority with
   | some pr => decide (p.priority = pr)
   | none => true)

/-- The resolution tie-break of findPromptByCriteria: higher priority, then
higher version, then more recent updatedAt. -/
def isBetter (candidate current : Prompt) : Bool :=
  if candidate.priority ≠ current.priority then decide (candidate.priority > current.priority)
  else if candidate.version ≠ current.version then decide (candidate.version > current.version)
  else decide (candidate.updatedAt > current.updatedAt)

/-- One accumulator step of the best-candidate fold
(if (!best || isBetter(p, best)) best = p). -/
def betterOf (best : Option Prompt) (p : Prompt) : Option Prompt :=
  match best with
  | none => some p
  | some b => if isBetter p b then some p else some b

/-- The scan-and-select loop shared by the three scanning paths of
findPromptByCriteria: skip non-matching records, keep the best. -/
def bestLoop (c : PromptCriteria) : Option Prompt → List Prompt → Option Prompt
  | best, [] => best
  | best, p :: rest =>
      if matchesCrit c p then bestLoop c (betterOf best p) rest
      else bestLoop c best rest

/-- Candidates of the namespace+name index scan: records reachable through
index entries under the (namespace, name) prefix. -/
def nsNameScan (s : KVState) (ns n : String) : List Prompt :=
  ((byNameEntries s).filter (fun e => decide (e.1.1 = ns ∧ e.1.2.1 = n))).filterMap
    (fun e => getPrompt s e.2)

/-- Candidates of the namespace index scan. -/
def nsScan (s : KVState) (ns : String) : List Prompt :=
  ((byNameEntries s).filter (fun e => decide (e.1.1 = ns))).filterMap
    (fun e => getPrompt s e.2)

/-- The fully-specified fast path: whether namespace, name and version are
all supplied (with JS truthiness on the strings). -/
def fullySpecified (c : PromptCriteria) : Bool :=
  strTruthy c.«namespace» && strTruthy c.name && c.version.isSome

/-- The natural-key fast path of findPromptByCriteria. -/
def fastLookup (s : KVState) (c : PromptCriteria) : Option Prompt :=
  match kvGetId s (.byName (c.«namespace».getD "") (c.name.getD "") (c.version.getD 0)) with
  | some mid =>
      if mid.isEmpty then none
      else
        match getPrompt s mid with
        | some p => if matchesCrit c p then some p else none
        | none => none
  | none => none

/-- findPromptByCriteria: no-op without criteria; natural-key fast path when
fully specified; otherwise scan the narrowest available prefix and keep the
best matching record under isBetter. -/
def findPromptByCriteria (s : KVState) (c : PromptCriteria) : Option Prompt :=
  if hasCriteria c = false then none
  else if fullySpecified c then fastLookup s c
  else if strTruthy c.«namespace» && strTruthy c.name then
    bestLoop c none (nsNameScan s (c.«namespace».getD "") (c.name.getD ""))
  else if strTruthy c.«namespace» then
    bestLoop c none (nsScan s (c.«namespace».getD ""))
  else
    bestLoop c none ((promptEntries s).map (fun e => e.2))

/-- The no-namespace fallback of getDefaultPrompt: scan the primary prefix
(capped at 200 entries) for the first record with isDefault. -/
def getDefaultFallback (s : KVState) : Option Prompt :=
  (((promptEntries s).take 200).map (fun e => e.2)).find? (fun p => p.isDefault)

/-- getDefaultPrompt: with a (truthy) namespace, a point lookup through the
default mapping followed by a point lookup of the mapped id; the function
performs no writes, so a stale mapping is left in place.  Without a
namespace, the capped fallback scan. -/
def getDefaultPrompt (s : KVState) (nsOpt : Option String) : Option Prompt :=
  if strTruthy nsOpt then
    match kvGetId s (.dflt (nsOpt.getD "")) with
    | some v =>
        if v.isEmpty then none
        else
          match getPrompt s v with
          | some p => some p
          | none => none
    | none => none
  else
    getDefaultFallback s

/-- The result record of syncDefaultForNamespace.  The source returns the
object { namespace, id?, unset } (the field holding the demoted ids is named
unset). -/
structure SyncResult where
  «namespace» : String
  id : Option String := none
  unset : List String := []
  deriving DecidableEq, Repr

/-- A JSON value as serialized by the admin sync route (only the shapes the
sync result needs). -/
inductive JsonVal where
  | str (s : String)
  | strArr (l : List String)
  deriving DecidableEq, Repr

/-- The JSON object that JSON.stringify produces for a sync result (an
undefined id is omitted).  This is the wire shape exposed by the
/admin/prompts/defaults/sync route in src/main.ts. -/
def syncResultJson (r : SyncResult) : List (String × JsonVal) :=
  [("namespace", .str r.«namespace»)] ++
  (match r.id with
   | some i => [("id", .str i)]
   | none => []) ++
  [("unset", .strArr r.unset)]

/-- The candidate comparator of syncDefaultForNamespace: priority descending,
then updatedAt descending. -/
def syncCmp (a b : Prompt) : Int :=
  if a.priority ≠ b.priority then b.priority - a.priority
  else if a.updatedAt < b.updatedAt then 1
  else if a.updatedAt > b.updatedAt then -1
  else 0

/-- The default candidates of a namespace: stored prompts of the namespace
with isDefault set, in scan order. -/
def candidatesOf (s : KVState) (ns : String) : List Prompt :=
  ((promptEntries s).map (fun e => e.2)).filter
    (fun p => decide (p.«namespace» = ns) && p.isDefault)

/-- The demotion loop of syncDefaultForNamespace: updatePrompt with
{ isDefault: false } and skipDefaultSync for each listed id. -/
def unsetAll (now : Nat) : KVState → List String → Except StorageErr Unit × KVState
  | s, [] => (.ok (), s)
  | s, i :: rest =>
      match updatePrompt s i flipOff now true with
      | (.ok _, s') => unsetAll now s' rest
      | (.error e, s') => (.error e, s')

/-- syncDefaultForNamespace: collect the namespace's isDefault candidates,
sort them best-first (priority desc, updatedAt desc), demote all but the
winner, and point the mapping at the winner; with no candidate, delete the
mapping. -/
def syncDefaultForNamespace (s : KVState) (ns : String) (now : Nat) :
    Except StorageErr SyncResult × KVState :=
  match (candidatesOf s ns).insertionSort (fun a b => syncCmp a b ≤ 0) with
  | [] => (.ok { «namespace» := ns }, kvDelete s (.dflt ns))
  | selected :: others =>
      let othersToUnset := others.map (fun p => p.id)
      match unsetAll now s othersToUnset with
      | (.ok _, s₁) =>
          (.ok { «namespace» := ns, id := some selected.id, unset := othersToUnset },
           kvSet s₁ (.dflt ns) (.id selected.id))
      | (.error e, s₁) => (.error e, s₁)

/-- findDefaultVisionPrompt: fixed criteria namespace default, priority 1,
isDefault, isActive; highest version then most recent updatedAt. -/
def findDefaultVisionPrompt (s : KVState) : Option Prompt :=
  ((promptEntries s).map (fun e => e.2)).foldl
    (fun best p =>
      if p.«namespace» ≠ "default" then best
      else if p.priority ≠ 1 then best
      else if p.isDefault = false then best
      else if p.isActive = false then best
      else
        match best with
        | none => some p
        | some b =>
            if p.version ≠ b.version then (if p.version > b.version then some p else some b)
            else if p.updatedAt > b.updatedAt then some p
            else some b)
    none

/-- Well-typedness of a primary entry: a "prompts" key holds a Prompt record
whose id field equals the key (ids are nonempty ULIDs). -/
def entryIdOK : KVEntry → Bool
  | (.prompt i, .prompt p, _) => decide (p.id = i ∧ i ≠ "")
  | (.prompt _, _, _) => false
  | _ => true

/-- The natural-key index entry a stored record should have. -/
def byNameIdOf (s : KVState) (p : Prompt) : Option String :=
  kvGetId s (.byName p.«namespace» p.name p.version)

/-- Full well-formedness of a primary entry: id agreement plus a natural-key
index entry pointing back at the record. -/
def entryOK (s : KVState) : KVEntry → Bool
  | (.prompt i, .prompt p, _) => decide (p.id = i ∧ i ≠ "") && decide (byNameIdOf s p = some i)
  | (.prompt _, _, _) => false
  | _ => true

/-- Key uniqueness of the store (Deno KV is a map). -/
def keysNodup (s : KVState) : Prop :=
  (s.entries.map (fun e => e.1)).Nodup

/-- States reachable by the repository: unique keys and id-consistent primary
records (createPrompt keys records by their own generated id and updatePrompt
pins the id field). -/
def storeIdWF (s : KVState) : Prop :=
  keysNodup s ∧ ∀ e ∈ s.entries, entryIdOK e = true

/-- storeIdWF plus natural-key index consistency (maintained transactionally
by createPrompt, updatePrompt and deletePrompt). -/
def storeWF (s : KVState) : Prop :=
  keysNodup s ∧ ∀ e ∈ s.entries, entryOK s e = true

instance (s : KVState) : Decidable (keysNodup s) := by
  unfold keysNodup
  infer_instance

instance (s : KVState) : Decidable (storeIdWF s) := by
  unfold storeIdWF
  infer_instance

instance (s : KVState) : Decidable (storeWF s) := by
  unfold storeWF
  infer_instance

/-- First record of the C1 tie-break scenario: priority 5, version 1. -/
def c1A : Prompt := ⟨"A1", "n", "p", 1, "en", "a", [], 5, true, false, 1, 1⟩

/-- Second record of the C1 tie-break scenario: priority 5, version 2. -/
def c1B : Prompt := ⟨"B1", "n", "p", 2, "en", "b", [], 5, true, false, 2, 2⟩

/-- Third record of the C1 tie-break scenario: priority 3, version 1. -/
def c1C : Prompt := ⟨"C1", "n", "p", 1, "en", "c", [], 3, true, false, 3, 3⟩

/-- A store holding the three scenario records (priorities [5,5,3], versions
[1,2,1] in the same namespace/name).  Two records share the natural key
(n, p, 1), which a map-shaped index can hold only once; this state is
reachable by updating a record's version onto an occupied natural key. -/
def c1Store : KVState :=
  ⟨[(.prompt "A1", .prompt c1A, 0), (.prompt "B1", .prompt c1B, 1),
    (.prompt "C1", .prompt c1C, 2), (.byName "n" "p" 1, .id "C1", 3),
    (.byName "n" "p" 2, .id "B1", 1)], 4⟩

/-- A well-formed one-record store for the C1 counterexample. -/
def c1CexP : Prompt := ⟨"X", "n", "p", 1, "en", "t", [], 1, true, false, 1, 1⟩

/-- Store holding only c1CexP, with its index entry. -/
def c1CexStore : KVState :=
  ⟨[(.prompt "X", .prompt c1CexP, 0), (.byName "n" "p" 1, .id "X", 0)], 1⟩

/-- Criteria of the C1 witness: namespace and name supplied, not fully
specified. -/
def c1wCrit : PromptCriteria := { «namespace» := some "n", name := some "p" }

/-- A well-formed three-record store (distinct versions) for the C1 witness. -/
def c1wStore : KVState :=
  ⟨[(.prompt "A1", .prompt c1A, 0), (.prompt "B1", .prompt c1B, 1),
    (.prompt "C1", .prompt { c1C with version := 3 }, 2),
    (.byName "n" "p" 1, .id "A1", 0), (.byName "n" "p" 2, .id "B1", 1),
    (.byName "n" "p" 3, .id "C1", 2)], 3⟩

/-- The record of the C4 delete-race counterexample. -/
def c4P : Prompt := ⟨"a", "n", "p", 1, "en", "t", [], 1, true, false, 10, 10⟩

/-- Initial store of the C4 counterexample. -/
def c4s0 : KVState := ⟨[(.prompt "a", .prompt c4P, 0), (.byName "n" "p" 1, .id "a", 0)], 1⟩

/-- Store after a concurrent update lands between deletePrompt's read of c4P
and its commit. -/
def c4s1 : KVState := (updatePrompt c4s0 "a" { text := some "changed" } 20 false).2

/-- The per-key order underlying the listPrompts comparator. -/
def sortKeyLe (sb : SortBy) (a b : Prompt) : Prop :=
  match sb with
  | .priority => a.priority ≤ b.priority
  | .createdAt => a.createdAt ≤ b.createdAt
  | .updatedAt => a.updatedAt ≤ b.updatedAt

/-- Two-record store for the C8 counterexample and witness: pOld updated
before pNew. -/
def c8POld : Prompt := ⟨"o", "n", "p", 1, "en", "t", [], 1, true, false, 10, 10⟩

/-- The more recently updated record of the C8 store. -/
def c8PNew : Prompt := ⟨"w", "n", "q", 1, "en", "t", [], 1, true, false, 20, 20⟩

/-- The C8 store. -/
def c8Store : KVState :=
  ⟨[(.prompt "o", .prompt c8POld, 0), (.byName "n" "p" 1, .id "o", 0),
    (.prompt "w", .prompt c8PNew, 1), (.byName "n" "q" 1, .id "w", 1)], 2⟩

/-- The successor state of a successful update commit (the atomic op of
updatePrompt applied to the store). -/
def updCommit (s : KVState) (id : String) (p : Prompt) (st : Nat) (data : PromptUpdate)
    (now : Nat) : KVState :=
  ⟨(updateOp id p st data now).mutations.foldl (applyMutation s.nextStamp) s.entries,
   s.nextStamp + 1⟩

/-- The C9 stale-mapping store: the default mapping of namespace d points at
an id with no record. -/
def c9Store : KVState := ⟨[(.dflt "d", .id "gone", 0)], 1⟩

/-- The record of the C10 witness. -/
def c10P : Prompt := ⟨"u", "n", "p", 1, "en", "told", ["k"], 2, true, false, 5, 5⟩

/-- The C10 witness store. -/
def c10Store : KVState :=
  ⟨[(.prompt "u", .prompt c10P, 0), (.byName "n" "p" 1, .id "u", 0)], 1⟩

/-- The successor state of a successful create commit. -/
def createCommitState (s : KVState) (data : PromptCreate) (id : String) (now : Nat) : KVState :=
  ⟨(createOp data id now).mutations.foldl (applyMutation s.nextStamp) s.entries,
   s.nextStamp + 1⟩

/-- The create input of the C3 witness. -/
def c3Data : PromptCreate := ⟨"n", "p", 1, "en", "t", [], 1, true, false⟩

/-- The create input of the C6 witness (isDefault true, exercising the
post-commit mapping sync as well). -/
def c6Data : PromptCreate := ⟨"d", "p", 1, "en", "t", ["x"], 2, true, true⟩

/-- The record of the C5 witness. -/
def c5P : Prompt := ⟨"r", "n", "p", 1, "en", "t", [], 1, true, false, 3, 3⟩

/-- The C5 witness store. -/
def c5Store : KVState :=
  ⟨[(.prompt "r", .prompt c5P, 0), (.byName "n" "p" 1, .id "r", 0)], 1⟩

/-- First default of the C2 witness namespace. -/
def c2A : Prompt := ⟨"A", "d", "p", 1, "en", "ta", [], 1, true, true, 10, 10⟩

/-- Second (later-updated) default of the C2 witness namespace. -/
def c2B : Prompt := ⟨"B", "d", "p", 2, "en", "tb", [], 1, true, true, 20, 20⟩

/-- The C2 witness store: two records of namespace d both flagged default. -/
def c2Store : KVState :=
  ⟨[(.prompt "A", .prompt c2A, 0), (.byName "d" "p" 1, .id "A", 0),
    (.prompt "B", .prompt c2B, 1), (.byName "d" "p" 2, .id "B", 1)], 2⟩

/-- First default of the C7 scenario (earlier updatedAt). -/
def c7A : Prompt := ⟨"A", "d", "p", 1, "en", "ta", [], 1, true, true, 10, 10⟩

/-- Second default of the C7 scenario (later updatedAt). -/
def c7B : Prompt := ⟨"B", "d", "p", 2, "en", "tb", [], 1, true, true, 20, 20⟩

/-- The C7 scenario store: A created before B, both isDefault in namespace d. -/
def c7Store : KVState :=
  ⟨[(.prompt "A", .prompt c7A, 0), (.byName "d" "p" 1, .id "A", 0),
    (.prompt "B", .prompt c7B, 1), (.byName "d" "p" 2, .id "B", 1)], 2⟩

theorem find?_filter_ne (l : List KVEntry) (k k' : KVKey) (h : k' ≠ k) :
    (l.filter (fun e => e.1 ≠ k)).find? (fun e => decide (e.1 = k')) =
      l.find? (fun e => decide (e.1 = k')) := by
  induction l with
  | nil => rfl
  | cons e rest ih =>
    rw [List.filter_cons]
    by_cases hek : e.1 = k
    · have h2 : ¬ (e.1 = k') := fun hh => h (by rw [← hh, hek])
      rw [if_neg (by simp [hek]), List.find?_cons_of_neg _ (by simp [h2]), ih]
    · rw [if_pos (by simp [hek])]
      by_cases hk' : e.1 = k'
      · rw [List.find?_cons_of_pos _ (by simp [hk']), List.find?_cons_of_pos _ (by simp [hk'])]
      · rw [List.find?_cons_of_neg _ (by simp [hk']), List.find?_cons_of_neg _ (by simp [hk']),
          ih]

theorem entGet_set_self (st : Nat) (es : List KVEntry) (k : KVKey) (v : KVValue) :
    entGet (applyMutation st es (.set k v)) k = some (v, st) := by
  simp [entGet, applyMutation, List.find?_cons_of_pos]

theorem entGet_set_other (st : Nat) (es : List KVEntry) (k k' : KVKey) (v : KVValue)
    (h : k' ≠ k) :
    entGet (applyMutation st es (.set k v)) k' = entGet es k' := by
  simp only [entGet, applyMutation]
  rw [List.find?_cons_of_neg _ (by simp [Ne.symm h]), find?_filter_ne _ _ _ h]

theorem entGet_del_self (st : Nat) (es : List KVEntry) (k : KVKey) :
    entGet (applyMutation st es (.del k)) k = none := by
  simp only [entGet, applyMutation, Option.map_eq_none']
  rw [List.find?_eq_none]
  intro e he
  have := List.of_mem_filter he
  simp only [decide_eq_true_eq] at this ⊢
  exact fun hh => this (by simp [hh])

theorem entGet_del_other (st : Nat) (es : List KVEntry) (k k' : KVKey) (h : k' ≠ k) :
    entGet (applyMutation st es (.del k)) k' = entGet es k' := by
  simp only [entGet, applyMutation]
  rw [find?_filter_ne _ _ _ h]

theorem entGet_of_mem_nodup {es : List KVEntry} {e : KVEntry}
    (hnd : (es.map (fun x => x.1)).Nodup) (hm : e ∈ es) :
    entGet es e.1 = some e.2 := by
  induction es with
  | nil => cases hm
  | cons a rest ih =>
    rcases List.mem_cons.mp hm with rfl | hm'
    · simp [entGet, List.find?_cons_of_pos]
    · have hnd' := hnd
      rw [List.map_cons, List.nodup_cons] at hnd'
      have hne : a.1 ≠ e.1 := by
        intro hh
        exact hnd'.1 (hh ▸ List.mem_map_of_mem (fun x => x.1) hm')
      simp only [entGet]
      rw [List.find?_cons_of_neg _ (by simp [hne])]
      exact ih hnd'.2 hm'

theorem getPrompt_eq_some {s : KVState} {i : String} {p : Prompt} :
    getPrompt s i = some p ↔ ∃ st, kvGetEntry s (.prompt i) = some (.prompt p, st) := by
  unfold getPrompt
  cases h : kvGetEntry s (.prompt i) with
  | none => simp
  | some vp =>
    obtain ⟨v, st⟩ := vp
    cases v <;> simp

theorem getPrompt_mem {s : KVState} {i : String} {p : Prompt}
    (h : getPrompt s i = some p) :
    ∃ st, (KVKey.prompt i, KVValue.prompt p, st) ∈ s.entries := by
  obtain ⟨st, hk⟩ := getPrompt_eq_some.mp h
  unfold kvGetEntry entGet at hk
  cases hf : s.entries.find? (fun e => e.1 = KVKey.prompt i) with
  | none => rw [hf] at hk; simp at hk
  | some e =>
    rw [hf] at hk
    obtain ⟨k, v, n⟩ := e
    have hmem := List.mem_of_find?_eq_some hf
    have hpred := List.find?_some hf
    simp only [decide_eq_true_eq] at hpred
    simp only [Option.map_some', Option.some.injEq] at hk
    rw [hpred] at hmem
    rw [show v = KVValue.prompt p from congrArg Prod.fst hk,
        show n = st from congrArg Prod.snd hk] at hmem
    exact ⟨st, hmem⟩

theorem getPrompt_of_mem {s : KVState} {i : String} {p : Prompt} {st : Nat}
    (hnd : keysNodup s) (hm : (KVKey.prompt i, KVValue.prompt p, st) ∈ s.entries) :
    getPrompt s i = some p := by
  have hg := entGet_of_mem_nodup hnd hm
  unfold getPrompt kvGetEntry
  rw [hg]

theorem mem_promptEntries {s : KVState} {i : String} {p : Prompt} :
    (i, p) ∈ promptEntries s ↔ ∃ st, (KVKey.prompt i, KVValue.prompt p, st) ∈ s.entries := by
  unfold promptEntries
  rw [List.mem_filterMap]
  constructor
  · rintro ⟨⟨k, v, n⟩, he, hd⟩
    cases k <;> cases v <;> simp [promptDec] at hd
    obtain ⟨h1, h2⟩ := hd
    exact ⟨n, by rw [← h1, ← h2]; exact he⟩
  · rintro ⟨st, hm⟩
    exact ⟨(KVKey.prompt i, KVValue.prompt p, st), hm, rfl⟩

theorem mem_byNameEntries {s : KVState} {ns n : String} {v : Nat} {i : String} :
    ((ns, n, v), i) ∈ byNameEntries s ↔
      ∃ st, (KVKey.byName ns n v, KVValue.id i, st) ∈ s.entries := by
  unfold byNameEntries
  rw [List.mem_filterMap]
  constructor
  · rintro ⟨⟨k, w, m⟩, he, hd⟩
    cases k <;> cases w <;> simp [byNameDec] at hd
    obtain ⟨⟨h1, h2, h3⟩, h4⟩ := hd
    exact ⟨m, by rw [← h1, ← h2, ← h3, ← h4]; exact he⟩
  · rintro ⟨st, hm⟩
    exact ⟨(KVKey.byName ns n v, KVValue.id i, st), hm, rfl⟩

theorem kvGetId_eq_some {s : KVState} {k : KVKey} {i : String} :
    kvGetId s k = some i ↔ ∃ st, kvGetEntry s k = some (.id i, st) := by
  unfold kvGetId
  cases h : kvGetEntry s k with
  | none => simp
  | some vp =>
    obtain ⟨v, st⟩ := vp
    cases v <;> simp

theorem storeIdWF_facts {s : KVState} (hwf : storeIdWF s) {i : String} {p : Prompt}
    (h : getPrompt s i = some p) : p.id = i ∧ i ≠ "" := by
  obtain ⟨st, hm⟩ := getPrompt_mem h
  have he := hwf.2 _ hm
  simpa [entryIdOK] using he

theorem storeWF_facts {s : KVState} (hwf : storeWF s) {i : String} {p : Prompt}
    (h : getPrompt s i = some p) :
    p.id = i ∧ i ≠ "" ∧ byNameIdOf s p = some i := by
  obtain ⟨st, hm⟩ := getPrompt_mem h
  have he := hwf.2 _ hm
  simp only [entryOK, Bool.and_eq_true, decide_eq_true_eq] at he
  exact ⟨he.1.1, he.1.2, he.2⟩

theorem storeWF_idWF {s : KVState} (hwf : storeWF s) : storeIdWF s := by
  refine ⟨hwf.1, fun e he => ?_⟩
  have h := hwf.2 e he
  obtain ⟨k, v, n⟩ := e
  cases k <;> cases v <;> simp_all [entryOK, entryIdOK]

theorem isBetter_irrefl (p : Prompt) : isBetter p p = false := by
  simp [isBetter]

theorem isBetter_asymm {p q : Prompt} (h : isBetter p q = true) : isBetter q p = false := by
  unfold isBetter at *
  split_ifs at * <;> simp_all <;> omega

theorem isBetter_false_trans {p x b : Prompt} (h1 : isBetter p x = false)
    (h2 : isBetter x b = false) : isBetter p b = false := by
  unfold isBetter at *
  split_ifs at * <;> simp_all <;> omega

theorem bestLoop_eq_none (c : PromptCriteria) :
    ∀ (l : List Prompt) (b : Option Prompt), bestLoop c b l = none →
      b = none ∧ ∀ p ∈ l, matchesCrit c p = false := by
  intro l
  induction l with
  | nil => exact fun b h => ⟨h, by simp⟩
  | cons p rest ih =>
    intro b h
    unfold bestLoop at h
    by_cases hm : matchesCrit c p = true
    · rw [if_pos hm] at h
      obtain ⟨hb, _⟩ := ih _ h
      exfalso
      cases b with
      | none => simp [betterOf] at hb
      | some b0 =>
        simp only [betterOf] at hb
        split at hb <;> simp_all
    · rw [if_neg hm] at h
      obtain ⟨hb, hrest⟩ := ih _ h
      refine ⟨hb, fun q hq => ?_⟩
      rcases List.mem_cons.mp hq with rfl | hq'
      · simpa using hm
      · exact hrest q hq'

theorem bestLoop_eq_some (c : PromptCriteria) :
    ∀ (l : List Prompt) (b0 : Option Prompt) (b : Prompt),
      bestLoop c b0 l = some b →
      (b0 = some b ∨ (b ∈ l ∧ matchesCrit c b = true)) ∧
      (∀ p ∈ l, matchesCrit c p = true → isBetter p b = false) ∧
      (∀ x, b0 = some x → isBetter x b = false) := by
  intro l
  induction l with
  | nil =>
    intro b0 b h
    simp only [bestLoop] at h
    refine ⟨Or.inl h, by simp, fun x hx => ?_⟩
    rw [h] at hx
    injection hx with hx'
    rw [← hx']
    exact isBetter_irrefl b
  | cons p rest ih =>
    intro b0 b h
    unfold bestLoop at h
    by_cases hm : matchesCrit c p = true
    · rw [if_pos hm] at h
      obtain ⟨h1, h2, h3⟩ := ih (betterOf b0 p) b h
      refine ⟨?_, ?_, ?_⟩
      · rcases h1 with h1 | h1
        · cases b0 with
          | none =>
            simp only [betterOf, Option.some.injEq] at h1
            exact Or.inr ⟨by rw [← h1]; exact List.mem_cons_self p rest, by rwa [← h1]⟩
          | some x =>
            by_cases hpx : isBetter p x = true
            · simp only [betterOf, hpx, if_true] at h1
              injection h1 with h1'
              exact Or.inr ⟨by rw [← h1']; exact List.mem_cons_self p rest, by rwa [← h1']⟩
            · simp only [betterOf, hpx, if_false] at h1
              exact Or.inl h1
        · exact Or.inr ⟨List.mem_cons_of_mem _ h1.1, h1.2⟩
      · intro q hq hmq
        rcases List.mem_cons.mp hq with rfl | hq'
        · cases b0 with
          | none => exact h3 q (by simp [betterOf])
          | some x =>
            by_cases hpx : isBetter q x = true
            · exact h3 q (by simp [betterOf, hpx])
            · have hx := h3 x (by simp [betterOf, hpx])
              exact isBetter_false_trans (by simpa using hpx) hx
        · exact h2 q hq' hmq
      · intro x hx
        cases b0 with
        | none => simp at hx
        | some y =>
          injection hx with hxy
          rw [← hxy]
          by_cases hpy : isBetter p y = true
          · have h3p := h3 p (by simp [betterOf, hpy])
            exact isBetter_false_trans (isBetter_asymm hpy) h3p
          · exact h3 y (by simp [betterOf, hpy])
    · rw [if_neg hm] at h
      obtain ⟨h1, h2, h3⟩ := ih b0 b h
      refine ⟨?_, ?_, h3⟩
      · rcases h1 with h1 | h1
        · exact Or.inl h1
        · exact Or.inr ⟨List.mem_cons_of_mem _ h1.1, h1.2⟩
      · intro q hq hmq
        rcases List.mem_cons.mp hq with rfl | hq'
        · exact absurd hmq (by simpa using hm)
        · exact h2 q hq' hmq

theorem kvGetEntry_mem {s : KVState} {k : KVKey} {v : KVValue} {st : Nat}
    (h : kvGetEntry s k = some (v, st)) : (k, v, st) ∈ s.entries := by
  unfold kvGetEntry entGet at h
  cases hf : s.entries.find? (fun e => e.1 = k) with
  | none => rw [hf] at h; simp at h
  | some e =>
    rw [hf] at h
    obtain ⟨k', v', n'⟩ := e
    have hmem := List.mem_of_find?_eq_some hf
    have hpred := List.find?_some hf
    simp only [decide_eq_true_eq] at hpred
    simp only [Option.map_some', Option.some.injEq] at h
    rw [hpred] at hmem
    rw [show v' = v from congrArg Prod.fst h, show n' = st from congrArg Prod.snd h] at hmem
    exact hmem

theorem fullScan_cov {s : KVState} {i : String} {q : Prompt}
    (h : getPrompt s i = some q) : q ∈ (promptEntries s).map (fun e => e.2) := by
  obtain ⟨st, hm⟩ := getPrompt_mem h
  exact List.mem_map_of_mem _ (mem_promptEntries.mpr ⟨st, hm⟩)

theorem fullScan_sound {s : KVState} {q : Prompt} (hnd : keysNodup s)
    (h : q ∈ (promptEntries s).map (fun e => e.2)) : ∃ i, getPrompt s i = some q := by
  obtain ⟨⟨i, q'⟩, hm, hq⟩ := List.mem_map.mp h
  cases hq
  obtain ⟨st, hm'⟩ := mem_promptEntries.mp hm
  exact ⟨i, getPrompt_of_mem hnd hm'⟩

theorem nsScan_sound {s : KVState} {ns : String} {q : Prompt}
    (h : q ∈ nsScan s ns) : ∃ i, getPrompt s i = some q := by
  obtain ⟨e, _, hq⟩ := List.mem_filterMap.mp h
  exact ⟨e.2, hq⟩

theorem nsNameScan_sound {s : KVState} {ns n : String} {q : Prompt}
    (h : q ∈ nsNameScan s ns n) : ∃ i, getPrompt s i = some q := by
  obtain ⟨e, _, hq⟩ := List.mem_filterMap.mp h
  exact ⟨e.2, hq⟩

theorem nsScan_cov {s : KVState} {ns : String} {i : String} {q : Prompt}
    (hwf : storeWF s) (h : getPrompt s i = some q) (hns : q.«namespace» = ns) :
    q ∈ nsScan s ns := by
  obtain ⟨_, _, hidx⟩ := storeWF_facts hwf h
  obtain ⟨st, hk⟩ := kvGetId_eq_some.mp hidx
  have hmem := mem_byNameEntries.mpr ⟨st, kvGetEntry_mem hk⟩
  unfold nsScan
  apply List.mem_filterMap.mpr
  refine ⟨((q.«namespace», q.name, q.version), i), ?_, h⟩
  exact List.mem_filter.mpr ⟨hmem, by simp [hns]⟩

theorem nsNameScan_cov {s : KVState} {ns n : String} {i : String} {q : Prompt}
    (hwf : storeWF s) (h : getPrompt s i = some q) (hns : q.«namespace» = ns)
    (hn : q.name = n) : q ∈ nsNameScan s ns n := by
  obtain ⟨_, _, hidx⟩ := storeWF_facts hwf h
  obtain ⟨st, hk⟩ := kvGetId_eq_some.mp hidx
  have hmem := mem_byNameEntries.mpr ⟨st, kvGetEntry_mem hk⟩
  unfold nsNameScan
  apply List.mem_filterMap.mpr
  refine ⟨((q.«namespace», q.name, q.version), i), ?_, h⟩
  exact List.mem_filter.mpr ⟨hmem, by simp [hns, hn]⟩

theorem matchesCrit_ns {c : PromptCriteria} {q : Prompt} {ns : String}
    (h : matchesCrit c q = true) (hc : c.«namespace» = some ns)
    (hne : ns.isEmpty = false) : q.«namespace» = ns := by
  unfold matchesCrit at h
  rw [hc] at h
  simp only [Bool.and_eq_true, Bool.or_eq_true, decide_eq_true_eq] at h
  rcases h.1.1.1.1.1 with h1 | h1
  · rw [hne] at h1; cases h1
  · exact h1

theorem matchesCrit_name {c : PromptCriteria} {q : Prompt} {n : String}
    (h : matchesCrit c q = true) (hc : c.name = some n)
    (hne : n.isEmpty = false) : q.name = n := by
  unfold matchesCrit at h
  rw [hc] at h
  simp only [Bool.and_eq_true, Bool.or_eq_true, decide_eq_true_eq] at h
  rcases h.1.1.1.1.2 with h1 | h1
  · rw [hne] at h1; cases h1
  · exact h1

theorem bestLoop_path_spec (s : KVState) (c : PromptCriteria) (L : List Prompt)
    (hsound : ∀ q ∈ L, ∃ i, getPrompt s i = some q)
    (hcov : ∀ i q, getPrompt s i = some q → matchesCrit c q = true → q ∈ L) :
    (∀ p, bestLoop c none L = some p →
        (∃ i, getPrompt s i = some p) ∧ matchesCrit c p = true ∧
        (∀ i q, getPrompt s i = some q → matchesCrit c q = true → isBetter q p = false)) ∧
    (bestLoop c none L = none →
        ∀ i q, getPrompt s i = some q → matchesCrit c q = false) := by
  constructor
  · intro p hp
    obtain ⟨h1, h2, _⟩ := bestLoop_eq_some c L none p hp
    rcases h1 with h1 | h1
    · exact absurd h1 (by simp)
    obtain ⟨hmem, hmatch⟩ := h1
    exact ⟨hsound p hmem, hmatch, fun i q hq hmq => h2 q (hcov i q hq hmq) hmq⟩
  · intro hnone i q hq
    obtain ⟨_, hall⟩ := bestLoop_eq_none c L none hnone
    cases hcase : matchesCrit c q with
    | false => rfl
    | true => exact absurd (hall q (hcov i q hq hcase)) (by simp [hcase])

/-- C1 (amended: at least one criterion must be supplied — the source
returns not-found for an empty criteria set before scanning anything).
For every criteria set with at least one supplied criterion that is not
fully (namespace, name, version) specified, on a well-formed store
findPromptByCriteria returns a stored record matching every supplied
predicate that no other stored matching record beats under the
priority-then-version-then-updatedAt tie-break, and not-found exactly when
no stored record matches.  In particular, on the three-record scenario with
priorities [5,5,3] and versions [1,2,1] it returns the record with
priority 5, version 2. -/
theorem findPromptByCriteria_best (s : KVState) (c : PromptCriteria)
    (hwf : storeWF s) (hhas : hasCriteria c = true) (hfull : fullySpecified c = false) :
    ((∀ p, findPromptByCriteria s c = some p →
        (∃ i, getPrompt s i = some p) ∧ matchesCrit c p = true ∧
        (∀ i q, getPrompt s i = some q → matchesCrit c q = true → isBetter q p = false)) ∧
     (findPromptByCriteria s c = none →
        ∀ i q, getPrompt s i = some q → matchesCrit c q = false)) ∧
    (findPromptByCriteria c1Store { «namespace» := some "n", name := some "p" } = some c1B ∧
      c1B.priority = 5 ∧ c1B.version = 2) := by
  refine ⟨?_, by decide, by decide, by decide⟩
  have hnd := hwf.1
  unfold findPromptByCriteria
  rw [if_neg (by simp [hhas]), if_neg (by simp [hfull])]
  by_cases hns : strTruthy c.«namespace» = true
  · by_cases hn : strTruthy c.name = true
    · rw [if_pos (by rw [hns, hn]; rfl)]
      cases hcns : c.«namespace» with
      | none => rw [hcns] at hns; simp [strTruthy] at hns
      | some ns0 =>
        cases hcn : c.name with
        | none => rw [hcn] at hn; simp [strTruthy] at hn
        | some n0 =>
          have hns0 : ns0.isEmpty = false := by
            rw [hcns] at hns; simpa [strTruthy] using hns
          have hn0 : n0.isEmpty = false := by
            rw [hcn] at hn; simpa [strTruthy] using hn
          simp only [Option.getD_some]
          exact bestLoop_path_spec s c _ (fun q hq => nsNameScan_sound hq)
            (fun i q hq hm => nsNameScan_cov hwf hq (matchesCrit_ns hm hcns hns0)
              (matchesCrit_name hm hcn hn0))
    · rw [if_neg (by simp [Bool.not_eq_true] at hn; simp [hn]), if_pos hns]
      cases hcns : c.«namespace» with
      | none => rw [hcns] at hns; simp [strTruthy] at hns
      | some ns0 =>
        have hns0 : ns0.isEmpty = false := by
          rw [hcns] at hns; simpa [strTruthy] using hns
        simp only [Option.getD_some]
        exact bestLoop_path_spec s c _ (fun q hq => nsScan_sound hq)
          (fun i q hq hm => nsScan_cov hwf hq (matchesCrit_ns hm hcns hns0))
  · rw [if_neg (by simp [Bool.not_eq_true] at hns; simp [hns]), if_neg hns]
    exact bestLoop_path_spec s c _ (fun q hq => fullScan_sound hnd hq)
      (fun i q hq _ => fullScan_cov hq)

/-- C1 counterexample to the claim as stated: the empty criteria set is not
fully (namespace, name, version) specified and every stored prompt matches
all (zero) supplied predicates, yet findPromptByCriteria returns not-found
instead of the best stored record — the source bails out before scanning
when no criterion is supplied. -/
theorem findPromptByCriteria_empty_criteria_cex :
    fullySpecified {} = false ∧ storeWF c1CexStore ∧
    getPrompt c1CexStore "X" = some c1CexP ∧ matchesCrit {} c1CexP = true ∧
    findPromptByCriteria c1CexStore {} = none := by decide

theorem findPromptByCriteria_best_witness :
    storeWF c1wStore ∧ hasCriteria c1wCrit = true ∧ fullySpecified c1wCrit = false ∧
    findPromptByCriteria c1wStore c1wCrit = some c1B ∧ matchesCrit c1wCrit c1B = true := by
  refine ⟨by decide, by decide, by decide, by decide, ?_⟩
  have h := findPromptByCriteria_best c1wStore c1wCrit (by decide) (by decide) (by decide)
  exact (h.1.1 c1B (by decide)).2.1

theorem commitOp_isSome (s : KVState) (op : AtomicOp) :
    (commitOp s op).isSome = op.checks.all (checkPasses s) := by
  unfold commitOp
  split <;> simp_all

/-- C4 (amended): Create and Update commit through a single atomic multi-key
operation with a precondition — update succeeds exactly when the record's
concurrency token is still the one read (otherwise it fails with the
retryable conflict), create exactly when the natural-key index entry is
absent — but Delete's atomic commit carries no precondition at all: it
succeeds even when the record changed between read and commit. -/
theorem repository_mutation_conditioning :
    (∀ (s' : KVState) (id : String) (existing : Prompt) (st : Nat) (data : PromptUpdate)
        (now : Nat),
        (commitOp s' (updateOp id existing st data now)).isSome = true ↔
          (kvGetEntry s' (.prompt id)).map (fun e => e.2) = some st) ∧
    (∀ (s' : KVState) (data : PromptCreate) (id : String) (now : Nat),
        (commitOp s' (createOp data id now)).isSome = true ↔
          kvGetEntry s' (.byName data.«namespace» data.name data.version) = none) ∧
    (∀ (s' : KVState) (id : String) (p : Prompt),
        (commitOp s' (deleteOp id p)).isSome = true) := by
  refine ⟨?_, ?_, ?_⟩
  · intro s' id existing st data now
    rw [commitOp_isSome]
    simp [updateOp, checkPasses]
  · intro s' data id now
    rw [commitOp_isSome]
    simp [createOp, checkPasses]
  · intro s' id p
    rw [commitOp_isSome]
    simp [deleteOp]

/-- C4 counterexample to the claim as stated: deletePrompt reads the record,
a concurrent update changes the record's state before the delete's commit,
and the delete commit still succeeds — the source's delete commit has no
.check, so it is not conditioned on the concurrency token of the record it
read and never fails with a conflict. -/
theorem delete_commit_unconditional_cex :
    getPrompt c4s0 "a" = some c4P ∧
    kvGetEntry c4s1 (.prompt "a") ≠ kvGetEntry c4s0 (.prompt "a") ∧
    (commitOp c4s1 (deleteOp "a" c4P)).isSome = true := by decide

theorem insertionSort_desc_sorted (sb : SortBy) (l : List Prompt) :
    (l.insertionSort (fun a b => listCmp sb (-1) a b ≤ 0)).Sorted
      (fun a b => sortKeyLe sb b a) := by
  have hs : (l.insertionSort (fun a b => listCmp sb (-1) a b ≤ 0)).Sorted
      (fun a b => listCmp sb (-1) a b ≤ 0) := by
    haveI ht : IsTotal Prompt (fun a b => listCmp sb (-1) a b ≤ 0) := by
      constructor
      intro a b
      cases sb <;> simp only [listCmp] <;> split_ifs <;> omega
    haveI htr : IsTrans Prompt (fun a b => listCmp sb (-1) a b ≤ 0) := by
      constructor
      intro a b c
      cases sb <;> simp only [listCmp] <;> split_ifs <;> omega
    exact List.sorted_insertionSort _ l
  refine hs.imp ?_
  intro a b hab
  cases sb <;> simp only [listCmp, sortKeyLe, gt_iff_lt] at hab ⊢ <;>
    split_ifs at hab <;> omega

/-- C8 (amended): without an explicit sortOrder, listPrompts sorts the
returned items in descending order of the requested sort key (the source
defaults sortOrder to "desc", with sortBy defaulting to updatedAt). -/
theorem listPrompts_default_sort_desc (s : KVState) (flt : PromptListFilters)
    (h : flt.sortOrder = none) :
    (listPrompts s flt).Sorted (fun a b => sortKeyLe (flt.sortBy.getD .updatedAt) b a) := by
  unfold listPrompts
  rw [h]
  exact insertionSort_desc_sorted (flt.sortBy.getD .updatedAt) (listCollect s flt _ _)

theorem listPrompts_default_sort_desc_witness :
    (({} : PromptListFilters).sortOrder = none) ∧
    listPrompts c8Store {} = [c8PNew, c8POld] ∧
    (listPrompts c8Store {}).Sorted (fun a b => sortKeyLe .updatedAt b a) :=
  ⟨by decide, by decide, listPrompts_default_sort_desc c8Store {} (by decide)⟩

/-- C8 counterexample to the claim as stated: with no explicit sortOrder the
two-record listing comes back [newer, older], which is not ascending in the
default updatedAt sort key — the source's default convention is descending,
not ascending. -/
theorem listPrompts_default_sort_asc_cex :
    (({} : PromptListFilters).sortOrder = none) ∧
    listPrompts c8Store {} = [c8PNew, c8POld] ∧
    ¬ sortKeyLe .updatedAt c8PNew c8POld := by
  refine ⟨by decide, by decide, ?_⟩
  simp [sortKeyLe, c8PNew, c8POld]

theorem updatePromptCore_of_get {s : KVState} {id : String} {p : Prompt} {st : Nat}
    (hget : kvGetEntry s (.prompt id) = some (.prompt p, st)) (data : PromptUpdate)
    (now : Nat) :
    updatePromptCore s id data now =
      (.ok (some (mergePrompt p data id now)), updCommit s id p st data now) := by
  have hpass : (updateOp id p st data now).checks.all (checkPasses s) = true := by
    simp [updateOp, checkPasses, hget]
  simp only [updatePromptCore, hget, commitOp, hpass, if_true, updCommit]

theorem updatePromptCore_none {s : KVState} {id : String} (data : PromptUpdate) (now : Nat)
    (h : getPrompt s id = none) : updatePromptCore s id data now = (.ok none, s) := by
  unfold getPrompt at h
  unfold updatePromptCore
  cases hk : kvGetEntry s (.prompt id) with
  | none => rfl
  | some vp =>
    obtain ⟨v, st⟩ := vp
    cases v with
    | prompt q => rw [hk] at h; simp at h
    | id i => rfl

theorem updCommit_getPrompt (s : KVState) (id : String) (p : Prompt) (st : Nat)
    (data : PromptUpdate) (now : Nat) (j : String) :
    getPrompt (updCommit s id p st data now) j =
      if j = id then some (mergePrompt p data id now) else getPrompt s j := by
  unfold updCommit updateOp
  by_cases h : natKeyChanged p data = true
  · rw [if_pos h]
    simp only [List.cons_append, List.nil_append, List.foldl_cons, List.foldl_nil]
    unfold getPrompt kvGetEntry
    rw [entGet_set_other _ _ _ _ _ (by simp), entGet_del_other _ _ _ _ (by simp)]
    by_cases hj : j = id
    · rw [hj, entGet_set_self]; simp
    · rw [entGet_set_other _ _ _ _ _ (by simp [hj]), if_neg hj]
  · rw [if_neg h]
    simp only [List.cons_append, List.nil_append, List.foldl_cons, List.foldl_nil]
    unfold getPrompt kvGetEntry
    by_cases hj : j = id
    · rw [hj, entGet_set_self]; simp
    · rw [entGet_set_other _ _ _ _ _ (by simp [hj]), if_neg hj]

theorem updCommit_dflt (s : KVState) (id : String) (p : Prompt) (st : Nat)
    (data : PromptUpdate) (now : Nat) (d : String) :
    kvGetEntry (updCommit s id p st data now) (.dflt d) = kvGetEntry s (.dflt d) := by
  unfold updCommit updateOp
  by_cases h : natKeyChanged p data = true
  · rw [if_pos h]
    simp only [List.cons_append, List.nil_append, List.foldl_cons, List.foldl_nil]
    unfold kvGetEntry
    rw [entGet_set_other _ _ _ _ _ (by simp), entGet_del_other _ _ _ _ (by simp),
      entGet_set_other _ _ _ _ _ (by simp)]
  · rw [if_neg h]
    simp only [List.cons_append, List.nil_append, List.foldl_cons, List.foldl_nil]
    unfold kvGetEntry
    rw [entGet_set_other _ _ _ _ _ (by simp)]

theorem updCommit_byName_of_unchanged (s : KVState) (id : String) (p : Prompt) (st : Nat)
    (data : PromptUpdate) (now : Nat) (h : natKeyChanged p data = false)
    (a b : String) (c : Nat) :
    kvGetEntry (updCommit s id p st data now) (.byName a b c) =
      kvGetEntry s (.byName a b c) := by
  unfold updCommit updateOp
  rw [if_neg (by simp [h])]
  simp only [List.cons_append, List.nil_append, List.foldl_cons, List.foldl_nil]
  unfold kvGetEntry
  rw [entGet_set_other _ _ _ _ _ (by simp)]

theorem natKeyChanged_flipOff (p : Prompt) : natKeyChanged p flipOff = false := rfl

theorem syncStep_spec (s : KVState) (ns id : String) (now : Nat) :
    ∃ s₁, syncStep s ns id now = (.ok (), s₁) ∧
      (∀ (a b : String) (c : Nat),
        kvGetEntry s₁ (.byName a b c) = kvGetEntry s (.byName a b c)) ∧
      getPrompt s₁ id = getPrompt s id := by
  unfold syncStep
  cases hm : kvGetId s (.dflt ns) with
  | none => exact ⟨s, rfl, fun a b c => rfl, rfl⟩
  | some pv =>
    dsimp only
    by_cases hc : pv ≠ "" ∧ pv ≠ id
    · rw [if_pos hc]
      cases hg : getPrompt s pv with
      | none => exact ⟨s, rfl, fun a b c => rfl, rfl⟩
      | some prev =>
        dsimp only
        by_cases hd : prev.isDefault = true
        · rw [if_pos hd]
          obtain ⟨st, hk⟩ := getPrompt_eq_some.mp hg
          rw [updatePromptCore_of_get hk flipOff now]
          refine ⟨_, rfl, ?_, ?_⟩
          · intro a b c
            exact updCommit_byName_of_unchanged _ _ _ _ _ _ (natKeyChanged_flipOff prev) a b c
          · rw [updCommit_getPrompt]
            rw [if_neg (fun hh => hc.2 hh.symm)]
        · rw [if_neg hd]
          exact ⟨s, rfl, fun a b c => rfl, rfl⟩
    · rw [if_neg hc]
      exact ⟨s, rfl, fun a b c => rfl, rfl⟩

theorem syncDefaultMapping_spec (s : KVState) (ns id : String) (now : Nat) :
    ∃ s', syncDefaultMapping s ns id now = (.ok (), s') ∧
      (∀ (a b : String) (c : Nat),
        kvGetEntry s' (.byName a b c) = kvGetEntry s (.byName a b c)) ∧
      getPrompt s' id = getPrompt s id := by
  obtain ⟨s₁, h1, hbn, hgp⟩ := syncStep_spec s ns id now
  unfold syncDefaultMapping
  rw [h1]
  refine ⟨_, rfl, ?_, ?_⟩
  · intro a b c
    unfold kvSet kvGetEntry
    rw [show (⟨applyMutation s₁.nextStamp s₁.entries (.set (.dflt ns) (.id id)),
        s₁.nextStamp + 1⟩ : KVState).entries =
        applyMutation s₁.nextStamp s₁.entries (.set (.dflt ns) (.id id)) from rfl]
    rw [entGet_set_other _ _ _ _ _ (by simp)]
    exact hbn a b c
  · unfold kvSet getPrompt kvGetEntry
    rw [show (⟨applyMutation s₁.nextStamp s₁.entries (.set (.dflt ns) (.id id)),
        s₁.nextStamp + 1⟩ : KVState).entries =
        applyMutation s₁.nextStamp s₁.entries (.set (.dflt ns) (.id id)) from rfl]
    rw [entGet_set_other _ _ _ _ _ (by simp)]
    unfold getPrompt kvGetEntry at hgp
    exact hgp

theorem updatePrompt_of_get {s : KVState} {id : String} {p : Prompt} {st : Nat}
    (data : PromptUpdate) (now : Nat) (skip : Bool)
    (hget : kvGetEntry s (.prompt id) = some (.prompt p, st)) :
    ∃ s', updatePrompt s id data now skip = (.ok (some (mergePrompt p data id now)), s') ∧
      getPrompt s' id = some (mergePrompt p data id now) ∧
      (∀ (a b : String) (c : Nat),
        kvGetEntry s' (.byName a b c) =
          kvGetEntry (updCommit s id p st data now) (.byName a b c)) := by
  unfold updatePrompt
  rw [updatePromptCore_of_get hget data now]
  dsimp only
  by_cases hsync : data.isDefault = some true ∧ skip = false
  · rw [if_pos hsync]
    obtain ⟨s₂, hs₂, hbn, hgp⟩ := syncDefaultMapping_spec (updCommit s id p st data now)
      (mergePrompt p data id now).«namespace» id now
    rw [hs₂]
    refine ⟨s₂, rfl, ?_, hbn⟩
    rw [hgp, updCommit_getPrompt]
    simp
  · rw [if_neg hsync]
    refine ⟨_, rfl, ?_, fun a b c => rfl⟩
    rw [updCommit_getPrompt]
    simp

/-- C9: getDefaultPrompt with a namespace is a point lookup of the default
mapping followed by a point lookup of the mapped id; when the mapping exists
but the target record is absent (or decodes to nothing) it returns
not-found.  The function is a pure read in the embedding — the source
performs only kv.get calls on this path — so the stale mapping entry and
all other state are untouched by construction. -/
theorem getDefaultPrompt_stale_mapping (s : KVState) (ns v : String) (st : Nat)
    (hns : ns.isEmpty = false)
    (hmap : kvGetEntry s (.dflt ns) = some (.id v, st))
    (hgone : getPrompt s v = none) :
    getDefaultPrompt s (some ns) = none := by
  unfold getDefaultPrompt
  rw [if_pos (by simp [strTruthy, hns])]
  have hid : kvGetId s (.dflt ((some ns).getD "")) = some v := by
    simp only [Option.getD_some]
    unfold kvGetId
    rw [hmap]
  rw [hid]
  by_cases hv : v.isEmpty = true
  · simp [hv]
  · simp [hv, hgone]

theorem getDefaultPrompt_stale_mapping_witness :
    ("d" : String).isEmpty = false ∧
    kvGetEntry c9Store (.dflt "d") = some (.id "gone", 0) ∧
    getPrompt c9Store "gone" = none ∧
    getDefaultPrompt c9Store (some "d") = none :=
  ⟨by decide, by decide, by decide,
    getDefaultPrompt_stale_mapping c9Store "d" "gone" 0 (by decide) (by decide) (by decide)⟩

/-- C10: a successful update changes only the patched fields plus updatedAt —
the merged record keeps the id and createdAt, takes every supplied patch
field, and keeps the prior value of every absent field; the stored record at
the id is exactly the merged record. -/
theorem updatePrompt_frame (s : KVState) (id : String) (data : PromptUpdate) (now : Nat)
    (p : Prompt) (st : Nat)
    (hget : kvGetEntry s (.prompt id) = some (.prompt p, st)) (hid : p.id = id) :
    ∃ p' s', updatePrompt s id data now false = (.ok (some p'), s') ∧
      getPrompt s' id = some p' ∧
      p'.id = p.id ∧ p'.createdAt = p.createdAt ∧ p'.updatedAt = now ∧
      p'.«namespace» = data.«namespace».getD p.«namespace» ∧
      p'.name = data.name.getD p.name ∧
      p'.version = data.version.getD p.version ∧
      p'.lang = data.lang.getD p.lang ∧
      p'.text = data.text.getD p.text ∧
      p'.tags = data.tags.getD p.tags ∧
      p'.priority = data.priority.getD p.priority ∧
      p'.isActive = data.isActive.getD p.isActive ∧
      p'.isDefault = data.isDefault.getD p.isDefault := by
  obtain ⟨s', h1, h2, _⟩ := updatePrompt_of_get data now false hget
  exact ⟨_, s', h1, h2, hid.symm, rfl, rfl, rfl, rfl, rfl, rfl, rfl, rfl, rfl, rfl, rfl⟩

theorem updatePrompt_frame_witness :
    kvGetEntry c10Store (.prompt "u") = some (.prompt c10P, 0) ∧
    c10P.id = "u" ∧
    (∃ p' s',
      updatePrompt c10Store "u" { text := some "tnew" } 9 false = (.ok (some p'), s') ∧
      getPrompt s' "u" = some p' ∧
      p'.id = c10P.id ∧ p'.createdAt = c10P.createdAt ∧ p'.updatedAt = 9 ∧
      p'.«namespace» = (({ text := some "tnew" } : PromptUpdate)).«namespace».getD c10P.«namespace» ∧
      p'.name = (({ text := some "tnew" } : PromptUpdate)).name.getD c10P.name ∧
      p'.version = (({ text := some "tnew" } : PromptUpdate)).version.getD c10P.version ∧
      p'.lang = (({ text := some "tnew" } : PromptUpdate)).lang.getD c10P.lang ∧
      p'.text = (({ text := some "tnew" } : PromptUpdate)).text.getD c10P.text ∧
      p'.tags = (({ text := some "tnew" } : PromptUpdate)).tags.getD c10P.tags ∧
      p'.priority = (({ text := some "tnew" } : PromptUpdate)).priority.getD c10P.priority ∧
      p'.isActive = (({ text := some "tnew" } : PromptUpdate)).isActive.getD c10P.isActive ∧
      p'.isDefault = (({ text := some "tnew" } : PromptUpdate)).isDefault.getD c10P.isDefault) :=
  ⟨by decide, by decide,
    updatePrompt_frame c10Store "u" { text := some "tnew" } 9 c10P 0 (by decide) (by decide)⟩

theorem commitOp_eq_some {s s' : KVState} {op : AtomicOp} (h : commitOp s op = some s') :
    s' = ⟨op.mutations.foldl (applyMutation s.nextStamp) s.entries, s.nextStamp + 1⟩ := by
  unfold commitOp at h
  split at h
  · exact (Option.some.inj h).symm
  · cases h

theorem createCommitState_getPrompt_self (s : KVState) (data : PromptCreate) (id : String)
    (now : Nat) :
    getPrompt (createCommitState s data id now) id = some (mkPrompt data id now) := by
  unfold createCommitState createOp
  simp only [List.foldl_cons, List.foldl_nil]
  unfold getPrompt kvGetEntry
  rw [entGet_set_other _ _ _ _ _ (by simp), entGet_set_self]

theorem createCommitState_byName_self (s : KVState) (data : PromptCreate) (id : String)
    (now : Nat) :
    kvGetEntry (createCommitState s data id now)
      (.byName data.«namespace» data.name data.version) = some (.id id, s.nextStamp) := by
  unfold createCommitState createOp
  simp only [List.foldl_cons, List.foldl_nil]
  unfold kvGetEntry
  rw [entGet_set_self]

theorem createPrompt_ok_state {s : KVState} {data : PromptCreate} {id : String} {now : Nat}
    {p1 : Prompt} {s₁ : KVState} (h : createPrompt s data id now = (.ok p1, s₁)) :
    p1 = mkPrompt data id now ∧ getPrompt s₁ id = some (mkPrompt data id now) ∧
    kvGetId s₁ (.byName data.«namespace» data.name data.version) = some id := by
  unfold createPrompt at h
  cases hc : commitOp s (createOp data id now) with
  | none => rw [hc] at h; simp at h
  | some sc =>
    rw [hc] at h
    dsimp only at h
    have hsc : sc = createCommitState s data id now := commitOp_eq_some hc
    subst hsc
    have hgp := createCommitState_getPrompt_self s data id now
    have hbn := createCommitState_byName_self s data id now
    by_cases hd : (mkPrompt data id now).isDefault = true
    · rw [if_pos hd] at h
      obtain ⟨s₂, hs₂, hbn₂, hgp₂⟩ := syncDefaultMapping_spec (createCommitState s data id now)
        (mkPrompt data id now).«namespace» id now
      rw [hs₂] at h
      dsimp only at h
      injection h with h1 h2
      injection h1 with h1
      subst h2
      refine ⟨h1.symm, by rw [hgp₂, hgp], ?_⟩
      unfold kvGetId
      rw [hbn₂ _ _ _, hbn]
    · rw [if_neg hd] at h
      injection h with h1 h2
      injection h1 with h1
      subst h2
      refine ⟨h1.symm, hgp, ?_⟩
      unfold kvGetId
      rw [hbn]

theorem createPrompt_conflict_of_present (s : KVState) (data : PromptCreate) (id : String)
    (now : Nat)
    (hpres : kvGetEntry s (.byName data.«namespace» data.name data.version) ≠ none) :
    createPrompt s data id now = (.error .conflict, s) := by
  have hfail : (createOp data id now).checks.all (checkPasses s) = false := by
    simp only [createOp, List.all_cons, List.all_nil, Bool.and_true, checkPasses,
      decide_eq_false_iff_not, Option.map_eq_none']
    exact hpres
  unfold createPrompt commitOp
  rw [if_neg (by simp [hfail])]

theorem createPrompt_ok (s : KVState) (data : PromptCreate) (id : String) (now : Nat)
    (habs : kvGetEntry s (.byName data.«namespace» data.name data.version) = none) :
    ∃ s₁, createPrompt s data id now = (.ok (mkPrompt data id now), s₁) ∧
      getPrompt s₁ id = some (mkPrompt data id now) ∧
      kvGetId s₁ (.byName data.«namespace» data.name data.version) = some id := by
  have hpass : (createOp data id now).checks.all (checkPasses s) = true := by
    simp [createOp, checkPasses, habs]
  have hcommit : commitOp s (createOp data id now) = some (createCommitState s data id now) := by
    unfold commitOp
    rw [if_pos hpass]
    rfl
  unfold createPrompt
  rw [hcommit]
  dsimp only
  by_cases hd : (mkPrompt data id now).isDefault = true
  · rw [if_pos hd]
    obtain ⟨s₂, hs₂, hbn₂, hgp₂⟩ := syncDefaultMapping_spec (createCommitState s data id now)
      (mkPrompt data id now).«namespace» id now
    rw [hs₂]
    dsimp only
    refine ⟨s₂, rfl, by rw [hgp₂, createCommitState_getPrompt_self], ?_⟩
    unfold kvGetId
    rw [hbn₂ _ _ _, createCommitState_byName_self]
  · rw [if_neg hd]
    refine ⟨_, rfl, createCommitState_getPrompt_self s data id now, ?_⟩
    unfold kvGetId
    rw [createCommitState_byName_self]

/-- C3: createPrompt's only write is one atomic commit of primary record plus
natural-key index entry conditioned on the index key being absent — when the
natural key is already taken the call fails with the conflict error and the
returned state is the unchanged input state, and after one successful create
any second create with the same natural key fails with the conflict error
leaving its input state unchanged, so of two creates racing on one natural
key exactly one succeeds. -/
theorem createPrompt_natural_key_unique :
    (∀ (s : KVState) (data : PromptCreate) (id : String) (now : Nat),
        kvGetEntry s (.byName data.«namespace» data.name data.version) ≠ none →
        createPrompt s data id now = (.error .conflict, s)) ∧
    (∀ (s : KVState) (data : PromptCreate) (id : String) (now : Nat),
        kvGetEntry s (.byName data.«namespace» data.name data.version) = none →
        ∃ s₁, createPrompt s data id now = (.ok (mkPrompt data id now), s₁) ∧
          kvGetId s₁ (.byName data.«namespace» data.name data.version) = some id) ∧
    (∀ (s s₁ : KVState) (data data2 : PromptCreate) (id id2 : String) (now now2 : Nat)
        (p1 : Prompt),
        createPrompt s data id now = (.ok p1, s₁) →
        data2.«namespace» = data.«namespace» → data2.name = data.name →
        data2.version = data.version →
        createPrompt s₁ data2 id2 now2 = (.error .conflict, s₁)) := by
  refine ⟨?_, ?_, ?_⟩
  · exact createPrompt_conflict_of_present
  · intro s data id now habs
    obtain ⟨s₁, h1, _, h3⟩ := createPrompt_ok s data id now habs
    exact ⟨s₁, h1, h3⟩
  · intro s s₁ data data2 id id2 now now2 p1 h hns hn hv
    obtain ⟨_, _, hidx⟩ := createPrompt_ok_state h
    apply createPrompt_conflict_of_present
    rw [hns, hn, hv]
    intro hnone
    unfold kvGetId at hidx
    rw [hnone] at hidx
    cases hidx

theorem createPrompt_natural_key_unique_witness :
    kvGetEntry (⟨[], 0⟩ : KVState) (.byName "n" "p" 1) = none ∧
    (∃ s₁, createPrompt ⟨[], 0⟩ c3Data "i1" 5 = (.ok (mkPrompt c3Data "i1" 5), s₁) ∧
      kvGetId s₁ (.byName "n" "p" 1) = some "i1") ∧
    createPrompt (createPrompt ⟨[], 0⟩ c3Data "i1" 5).2 c3Data "i2" 6 =
      (.error .conflict, (createPrompt ⟨[], 0⟩ c3Data "i1" 5).2) := by
  refine ⟨by decide, ?_, ?_⟩
  · exact createPrompt_natural_key_unique.2.1 ⟨[], 0⟩ c3Data "i1" 5 (by decide)
  · exact createPrompt_natural_key_unique.2.2 ⟨[], 0⟩ (createPrompt ⟨[], 0⟩ c3Data "i1" 5).2
      c3Data c3Data "i1" "i2" 5 6 (mkPrompt c3Data "i1" 5) (by decide) rfl rfl rfl

/-- C6: after a successful create, getting the returned id yields a record
equal to the returned one, and that record takes every field from the input
except the server-assigned id, createdAt and updatedAt. -/
theorem createPrompt_get_roundtrip (s : KVState) (data : PromptCreate) (id : String)
    (now : Nat) (p1 : Prompt) (s₁ : KVState)
    (h : createPrompt s data id now = (.ok p1, s₁)) :
    getPrompt s₁ id = some p1 ∧
    p1.id = id ∧ p1.createdAt = now ∧ p1.updatedAt = now ∧
    p1.«namespace» = data.«namespace» ∧ p1.name = data.name ∧
    p1.version = data.version ∧ p1.lang = data.lang ∧ p1.text = data.text ∧
    p1.tags = data.tags ∧ p1.priority = data.priority ∧
    p1.isActive = data.isActive ∧ p1.isDefault = data.isDefault := by
  obtain ⟨hp, hg, _⟩ := createPrompt_ok_state h
  subst hp
  exact ⟨hg, rfl, rfl, rfl, rfl, rfl, rfl, rfl, rfl, rfl, rfl, rfl, rfl⟩

theorem createPrompt_get_roundtrip_witness :
    createPrompt (⟨[], 0⟩ : KVState) c6Data "id6" 7 =
      (.ok (mkPrompt c6Data "id6" 7), (createPrompt ⟨[], 0⟩ c6Data "id6" 7).2) ∧
    (getPrompt (createPrompt ⟨[], 0⟩ c6Data "id6" 7).2 "id6" = some (mkPrompt c6Data "id6" 7) ∧
      (mkPrompt c6Data "id6" 7).id = "id6" ∧ (mkPrompt c6Data "id6" 7).createdAt = 7 ∧
      (mkPrompt c6Data "id6" 7).updatedAt = 7 ∧
      (mkPrompt c6Data "id6" 7).«namespace» = c6Data.«namespace» ∧
      (mkPrompt c6Data "id6" 7).name = c6Data.name ∧
      (mkPrompt c6Data "id6" 7).version = c6Data.version ∧
      (mkPrompt c6Data "id6" 7).lang = c6Data.lang ∧
      (mkPrompt c6Data "id6" 7).text = c6Data.text ∧
      (mkPrompt c6Data "id6" 7).tags = c6Data.tags ∧
      (mkPrompt c6Data "id6" 7).priority = c6Data.priority ∧
      (mkPrompt c6Data "id6" 7).isActive = c6Data.isActive ∧
      (mkPrompt c6Data "id6" 7).isDefault = c6Data.isDefault) :=
  ⟨by decide,
    createPrompt_get_roundtrip ⟨[], 0⟩ c6Data "id6" 7 (mkPrompt c6Data "id6" 7)
      (createPrompt ⟨[], 0⟩ c6Data "id6" 7).2 (by decide)⟩

theorem updCommit_byName_old (s : KVState) (id : String) (p : Prompt) (st : Nat)
    (data : PromptUpdate) (now : Nat)
    (hch : natKeyChanged p data = true)
    (hne : (KVKey.byName (mergePrompt p data id now).«namespace»
        (mergePrompt p data id now).name (mergePrompt p data id now).version) ≠
      KVKey.byName p.«namespace» p.name p.version) :
    kvGetEntry (updCommit s id p st data now)
      (.byName p.«namespace» p.name p.version) = none := by
  unfold updCommit updateOp
  rw [if_pos hch]
  simp only [List.cons_append, List.nil_append, List.foldl_cons, List.foldl_nil]
  unfold kvGetEntry
  rw [entGet_set_other _ _ _ _ _ (Ne.symm hne), entGet_del_self]

theorem updCommit_byName_new (s : KVState) (id : String) (p : Prompt) (st : Nat)
    (data : PromptUpdate) (now : Nat) (hch : natKeyChanged p data = true) :
    kvGetEntry (updCommit s id p st data now)
      (.byName (mergePrompt p data id now).«namespace» (mergePrompt p data id now).name
        (mergePrompt p data id now).version) = some (.id id, s.nextStamp) := by
  unfold updCommit updateOp
  rw [if_pos hch]
  simp only [List.cons_append, List.nil_append, List.foldl_cons, List.foldl_nil]
  unfold kvGetEntry
  rw [entGet_set_self]

/-- C5: a successful update that moves version from 1 to 2 (leaving
namespace and name unpatched) deletes the old natural-key index entry and
writes the new one inside the same atomic commit as the record write, so the
old (ns, name, 1) lookup is absent and the new (ns, name, 2) lookup yields
the prompt's id in the resulting state. -/
theorem updatePrompt_version_relocates_index (s : KVState) (id : String)
    (data : PromptUpdate) (now : Nat) (p : Prompt) (st : Nat)
    (hget : kvGetEntry s (.prompt id) = some (.prompt p, st))
    (hv1 : p.version = 1) (hdv : data.version = some 2)
    (hnm : data.name = none) (hns : data.«namespace» = none) :
    ∃ s', updatePrompt s id data now false =
        (.ok (some (mergePrompt p data id now)), s') ∧
      kvGetEntry s' (.byName p.«namespace» p.name 1) = none ∧
      kvGetId s' (.byName p.«namespace» p.name 2) = some id := by
  have hch : natKeyChanged p data = true := by
    simp [natKeyChanged, hnm, hns, hdv, hv1]
  have hmns : (mergePrompt p data id now).«namespace» = p.«namespace» := by
    simp [mergePrompt, hns]
  have hmn : (mergePrompt p data id now).name = p.name := by
    simp [mergePrompt, hnm]
  have hmv : (mergePrompt p data id now).version = 2 := by
    simp [mergePrompt, hdv]
  obtain ⟨s', h1, _, hbn⟩ := updatePrompt_of_get data now false hget
  refine ⟨s', h1, ?_, ?_⟩
  · rw [hbn]
    have hold := updCommit_byName_old s id p st data now hch
      (by rw [hmns, hmn, hmv, hv1]; simp)
    rw [← hv1]
    exact hold
  · unfold kvGetId
    rw [hbn]
    have hnew := updCommit_byName_new s id p st data now hch
    rw [hmns, hmn, hmv] at hnew
    rw [hnew]

theorem updatePrompt_version_relocates_index_witness :
    kvGetEntry c5Store (.prompt "r") = some (.prompt c5P, 0) ∧
    c5P.version = 1 ∧
    (∃ s', updatePrompt c5Store "r" { version := some 2 } 9 false =
        (.ok (some (mergePrompt c5P { version := some 2 } "r" 9)), s') ∧
      kvGetEntry s' (.byName "n" "p" 1) = none ∧
      kvGetId s' (.byName "n" "p" 2) = some "r") :=
  ⟨by decide, by decide,
    updatePrompt_version_relocates_index c5Store "r" { version := some 2 } 9 c5P 0
      (by decide) (by decide) (by decide) (by decide) (by decide)⟩

theorem mergePrompt_flip_idem (p : Prompt) (i : String) (now : Nat) :
    mergePrompt (mergePrompt p flipOff i now) flipOff i now = mergePrompt p flipOff i now := rfl

theorem mergePrompt_flip_isDefault (p : Prompt) (i : String) (now : Nat) :
    (mergePrompt p flipOff i now).isDefault = false := rfl

theorem updatePrompt_flip_step (s : KVState) (i : String) (now : Nat) :
    ∃ r s', updatePrompt s i flipOff now true = (.ok r, s') ∧
      (∀ j, getPrompt s' j =
        if j = i then (getPrompt s i).map (fun p => mergePrompt p flipOff i now)
        else getPrompt s j) ∧
      (∀ (a b : String) (c : Nat),
        kvGetEntry s' (.byName a b c) = kvGetEntry s (.byName a b c)) ∧
      (∀ d, kvGetEntry s' (.dflt d) = kvGetEntry s (.dflt d)) := by
  cases hg : getPrompt s i with
  | none =>
    refine ⟨none, s, ?_, ?_, fun a b c => rfl, fun d => rfl⟩
    · unfold updatePrompt
      rw [updatePromptCore_none flipOff now hg]
    · intro j
      by_cases hj : j = i
      · subst hj
        rw [if_pos rfl, hg]
        rfl
      · rw [if_neg hj]
  | some p =>
    obtain ⟨st, hk⟩ := getPrompt_eq_some.mp hg
    refine ⟨some (mergePrompt p flipOff i now), updCommit s i p st flipOff now, ?_, ?_, ?_, ?_⟩
    · unfold updatePrompt
      rw [updatePromptCore_of_get hk flipOff now]
      dsimp only
      rw [if_neg (by simp [flipOff])]
    · intro j
      rw [updCommit_getPrompt]
      simp [hg]
    · exact updCommit_byName_of_unchanged _ _ _ _ _ _ (natKeyChanged_flipOff p)
    · exact updCommit_dflt s i p st flipOff now

theorem unsetAll_spec (now : Nat) :
    ∀ (L : List String) (s : KVState),
      ∃ s₁, unsetAll now s L = (.ok (), s₁) ∧
        (∀ j, getPrompt s₁ j =
          if j ∈ L then (getPrompt s j).map (fun p => mergePrompt p flipOff j now)
          else getPrompt s j) ∧
        (∀ (a b : String) (c : Nat),
          kvGetEntry s₁ (.byName a b c) = kvGetEntry s (.byName a b c)) ∧
        (∀ d, kvGetEntry s₁ (.dflt d) = kvGetEntry s (.dflt d)) := by
  intro L
  induction L with
  | nil => exact fun s => ⟨s, rfl, by simp, fun a b c => rfl, fun d => rfl⟩
  | cons i rest ih =>
    intro s
    obtain ⟨r, s', hstep, hg, hbn, hdf⟩ := updatePrompt_flip_step s i now
    obtain ⟨s₁, hrest, hg₁, hbn₁, hdf₁⟩ := ih s'
    refine ⟨s₁, ?_, ?_, fun a b c => by rw [hbn₁, hbn], fun d => by rw [hdf₁, hdf]⟩
    · unfold unsetAll
      rw [hstep]
      dsimp only
      exact hrest
    · intro j
      rw [hg₁ j]
      by_cases hjr : j ∈ rest
      · rw [if_pos hjr, if_pos (List.mem_cons_of_mem i hjr), hg j]
        by_cases hji : j = i
        · subst hji
          rw [if_pos rfl, Option.map_map]
          cases getPrompt s j with
          | none => rfl
          | some p =>
            simp only [Option.map_some', Function.comp_apply, mergePrompt_flip_idem]
        · rw [if_neg hji]
      · rw [if_neg hjr, hg j]
        by_cases hji : j = i
        · subst hji
          rw [if_pos rfl, if_pos (List.mem_cons_self j rest)]
        · rw [if_neg hji, if_neg (by simp [hji, hjr])]

theorem promptEntries_id_eq_key {s : KVState} (hwf : storeIdWF s) :
    ∀ e ∈ promptEntries s, e.2.id = e.1 ∧ e.1 ≠ "" := by
  rintro ⟨i, p⟩ he
  obtain ⟨st, hm⟩ := mem_promptEntries.mp he
  have h := hwf.2 _ hm
  simpa [entryIdOK] using h

theorem promptDec_key {e : KVEntry} {i : String} {p : Prompt}
    (hd : promptDec e = some (i, p)) : e.1 = KVKey.prompt i := by
  obtain ⟨k, v, n⟩ := e
  cases k <;> cases v <;> simp [promptDec] at hd
  rw [hd.1]

theorem promptEntries_keys_nodup {s : KVState} (hnd : keysNodup s) :
    ((promptEntries s).map (fun e => e.1)).Nodup := by
  have hsub : ∀ (l : List KVEntry),
      (((l.filterMap promptDec).map (fun e => e.1)).map KVKey.prompt).Sublist
        (l.map (fun e => e.1)) := by
    intro l
    induction l with
    | nil => simp
    | cons e rest ih =>
      cases hd : promptDec e with
      | none =>
        simp only [List.filterMap_cons, hd, List.map_cons]
        exact ih.cons _
      | some ip =>
        obtain ⟨i, p⟩ := ip
        simp only [List.filterMap_cons, hd, List.map_cons, promptDec_key hd]
        exact ih.cons₂ _
  have h := List.Nodup.sublist (hsub s.entries) hnd
  exact h.of_map KVKey.prompt

theorem candidatesOf_ids_nodup {s : KVState} (ns : String) (hwf : storeIdWF s) :
    ((candidatesOf s ns).map (fun p => p.id)).Nodup := by
  have h1 : (candidatesOf s ns).Sublist ((promptEntries s).map (fun e => e.2)) :=
    List.filter_sublist _
  have h2 := h1.map (fun p => p.id)
  have h3 : ((promptEntries s).map (fun e => e.2)).map (fun p => p.id) =
      (promptEntries s).map (fun e => e.1) := by
    rw [List.map_map]
    apply List.map_congr_left
    intro e he
    exact (promptEntries_id_eq_key hwf e he).1
  rw [h3] at h2
  exact List.Nodup.sublist h2 (promptEntries_keys_nodup hwf.1)

theorem candidatesOf_props {s : KVState} {ns : String} {q : Prompt}
    (hq : q ∈ candidatesOf s ns) : q.«namespace» = ns ∧ q.isDefault = true := by
  have h := (List.mem_filter.mp hq).2
  simpa using h

theorem mem_candidatesOf_of_default {s : KVState} {ns : String} {j : String} {q : Prompt}
    (h : getPrompt s j = some q) (hq1 : q.«namespace» = ns) (hq2 : q.isDefault = true) :
    q ∈ candidatesOf s ns := by
  unfold candidatesOf
  exact List.mem_filter.mpr ⟨fullScan_cov h, by simp [hq1, hq2]⟩

theorem promptEntriesSnd_getPrompt {s : KVState} (hwf : storeIdWF s) {q : Prompt}
    (h : q ∈ (promptEntries s).map (fun e => e.2)) : getPrompt s q.id = some q := by
  obtain ⟨e, he, hq⟩ := List.mem_map.mp h
  obtain ⟨i, p⟩ := e
  have hid := (promptEntries_id_eq_key hwf _ he).1
  obtain ⟨st, hm⟩ := mem_promptEntries.mp he
  subst hq
  rw [hid]
  exact getPrompt_of_mem hwf.1 hm

theorem candidatesOf_getPrompt {s : KVState} {ns : String} {q : Prompt} (hwf : storeIdWF s)
    (hq : q ∈ candidatesOf s ns) : getPrompt s q.id = some q :=
  promptEntriesSnd_getPrompt hwf (List.mem_filter.mp hq).1

theorem syncCmp_nonpos {a b : Prompt} (h : syncCmp a b ≤ 0) :
    b.priority < a.priority ∨ (b.priority = a.priority ∧ b.updatedAt ≤ a.updatedAt) := by
  unfold syncCmp at h
  split_ifs at h <;> omega

theorem syncCmp_refl (a : Prompt) : syncCmp a a ≤ 0 := by
  unfold syncCmp
  split_ifs <;> omega

theorem syncCmp_sorted (l : List Prompt) :
    (l.insertionSort (fun a b => syncCmp a b ≤ 0)).Sorted (fun a b => syncCmp a b ≤ 0) := by
  haveI ht : IsTotal Prompt (fun a b => syncCmp a b ≤ 0) := by
    constructor
    intro a b
    unfold syncCmp
    split_ifs <;> omega
  haveI htr : IsTrans Prompt (fun a b => syncCmp a b ≤ 0) := by
    constructor
    intro a b c
    unfold syncCmp
    split_ifs <;> omega
  exact List.sorted_insertionSort _ l

theorem kvDelete_dflt_getPrompt (s : KVState) (ns : String) (j : String) :
    getPrompt (kvDelete s (.dflt ns)) j = getPrompt s j := by
  unfold kvDelete getPrompt kvGetEntry
  dsimp only
  rw [entGet_del_other _ _ _ _ (by simp)]

theorem kvDelete_dflt_self (s : KVState) (ns : String) :
    kvGetEntry (kvDelete s (.dflt ns)) (.dflt ns) = none := by
  unfold kvDelete kvGetEntry
  dsimp only
  exact entGet_del_self _ _ _

theorem kvSet_dflt_getPrompt (s : KVState) (ns i j : String) :
    getPrompt (kvSet s (.dflt ns) (.id i)) j = getPrompt s j := by
  unfold kvSet getPrompt kvGetEntry
  dsimp only
  rw [entGet_set_other _ _ _ _ _ (by simp)]

theorem kvSet_dflt_self (s : KVState) (ns i : String) :
    kvGetEntry (kvSet s (.dflt ns) (.id i)) (.dflt ns) = some (.id i, s.nextStamp) := by
  unfold kvSet kvGetEntry
  dsimp only
  exact entGet_set_self _ _ _ _

theorem syncDefaultForNamespace_nil_spec {s : KVState} {ns : String} (now : Nat)
    (hsort : (candidatesOf s ns).insertionSort (fun a b => syncCmp a b ≤ 0) = []) :
    syncDefaultForNamespace s ns now =
      (.ok { «namespace» := ns }, kvDelete s (.dflt ns)) ∧
    candidatesOf s ns = [] := by
  constructor
  · unfold syncDefaultForNamespace
    rw [hsort]
  · have hperm := List.perm_insertionSort (fun a b => syncCmp a b ≤ 0) (candidatesOf s ns)
    rw [hsort] at hperm
    exact hperm.symm.eq_nil

theorem syncDefaultForNamespace_cons_spec {s : KVState} {ns : String} (now : Nat)
    (hwf : storeIdWF s) {sel : Prompt} {others : List Prompt}
    (hsort : (candidatesOf s ns).insertionSort (fun a b => syncCmp a b ≤ 0) =
      sel :: others) :
    ∃ s', syncDefaultForNamespace s ns now =
        (.ok { «namespace» := ns, id := some sel.id, unset := others.map (fun p => p.id) },
         s') ∧
      sel ∈ candidatesOf s ns ∧
      (∀ p ∈ candidatesOf s ns, syncCmp sel p ≤ 0) ∧
      (sel.id :: others.map (fun p => p.id)).Perm
        ((candidatesOf s ns).map (fun p => p.id)) ∧
      kvGetId s' (.dflt ns) = some sel.id ∧
      getPrompt s' sel.id = some sel ∧
      (∀ j q, getPrompt s' j = some q → q.«namespace» = ns → q.isDefault = true →
        j = sel.id ∧ q = sel) ∧
      (∀ i ∈ others.map (fun p => p.id), ∃ q, getPrompt s' i = some q ∧
        q.isDefault = false) := by
  have hperm0 := List.perm_insertionSort (fun a b => syncCmp a b ≤ 0) (candidatesOf s ns)
  rw [hsort] at hperm0
  have hsel : sel ∈ candidatesOf s ns := hperm0.subset (List.mem_cons_self _ _)
  have hsorted := syncCmp_sorted (candidatesOf s ns)
  rw [hsort] at hsorted
  have hmin0 : ∀ p ∈ others, syncCmp sel p ≤ 0 := List.rel_of_sorted_cons hsorted
  have hmin : ∀ p ∈ candidatesOf s ns, syncCmp sel p ≤ 0 := by
    intro p hp
    rcases List.mem_cons.mp (hperm0.mem_iff.mpr hp) with heq | hp'
    · rw [heq] at hp ⊢
      exact syncCmp_refl sel
    · exact hmin0 p hp'
  have hidp : (sel.id :: others.map (fun p => p.id)).Perm
      ((candidatesOf s ns).map (fun p => p.id)) := by
    have h := hperm0.map (fun p => p.id)
    simpa using h
  have hnd : (sel.id :: others.map (fun p => p.id)).Nodup :=
    (hidp.nodup_iff).mpr (candidatesOf_ids_nodup ns hwf)
  have hselnotin : sel.id ∉ others.map (fun p => p.id) := (List.nodup_cons.mp hnd).1
  obtain ⟨s₁, hun, hg₁, hbn₁, hdf₁⟩ := unsetAll_spec now (others.map (fun p => p.id)) s
  refine ⟨kvSet s₁ (.dflt ns) (.id sel.id), ?_, hsel, hmin, hidp, ?_, ?_, ?_, ?_⟩
  · unfold syncDefaultForNamespace
    rw [hsort]
    dsimp only
    rw [hun]
  · unfold kvGetId
    rw [kvSet_dflt_self]
  · rw [kvSet_dflt_getPrompt, hg₁ sel.id, if_neg hselnotin]
    exact candidatesOf_getPrompt hwf hsel
  · intro j q hq hq1 hq2
    rw [kvSet_dflt_getPrompt, hg₁ j] at hq
    by_cases hj : j ∈ others.map (fun p => p.id)
    · rw [if_pos hj] at hq
      cases hgp : getPrompt s j with
      | none => rw [hgp] at hq; cases hq
      | some p₀ =>
        rw [hgp] at hq
        simp only [Option.map_some', Option.some.injEq] at hq
        rw [← hq] at hq2
        rw [mergePrompt_flip_isDefault] at hq2
        cases hq2
    · rw [if_neg hj] at hq
      have hqc : q ∈ candidatesOf s ns := mem_candidatesOf_of_default hq hq1 hq2
      have hqid := (storeIdWF_facts hwf hq).1
      rcases List.mem_cons.mp (hperm0.mem_iff.mpr hqc) with heq | hq'
      · refine ⟨?_, heq⟩
        rw [← hqid, heq]
      · exfalso
        apply hj
        rw [← hqid]
        exact List.mem_map_of_mem (fun p => p.id) hq'
  · intro i hi
    rw [kvSet_dflt_getPrompt, hg₁ i, if_pos hi]
    obtain ⟨p, hp, hpi⟩ := List.mem_map.mp hi
    have hgp : getPrompt s i = some p := by
      rw [← hpi]
      exact candidatesOf_getPrompt hwf (hperm0.subset (List.mem_cons_of_mem _ hp))
    rw [hgp]
    exact ⟨_, rfl, mergePrompt_flip_isDefault p i now⟩

/-- C2: after syncDefaultForNamespace(ns) runs to completion sequentially on
a reachable (key-unique, id-consistent) store, at most one stored prompt of
ns has isDefault, getDefaultPrompt(ns) returns exactly that prompt, and when
no prompt of ns has isDefault the lookup is not-found and the mapping entry
for ns is absent. -/
theorem syncDefaultForNamespace_default_exclusive (s : KVState) (ns : String) (now : Nat)
    (hwf : storeIdWF s) (hns : ns.isEmpty = false) :
    ∃ res s', syncDefaultForNamespace s ns now = (.ok res, s') ∧
      (∀ j q j' q', getPrompt s' j = some q → getPrompt s' j' = some q' →
        q.«namespace» = ns → q.isDefault = true →
        q'.«namespace» = ns → q'.isDefault = true → j = j' ∧ q = q') ∧
      (∀ j q, getPrompt s' j = some q → q.«namespace» = ns → q.isDefault = true →
        getDefaultPrompt s' (some ns) = some q) ∧
      ((∀ j q, getPrompt s' j = some q → q.«namespace» = ns → q.isDefault = false) →
        getDefaultPrompt s' (some ns) = none ∧ kvGetEntry s' (.dflt ns) = none) := by
  cases hsort : (candidatesOf s ns).insertionSort (fun a b => syncCmp a b ≤ 0) with
  | nil =>
    obtain ⟨hrun, hcand⟩ := syncDefaultForNamespace_nil_spec now hsort
    refine ⟨_, _, hrun, ?_, ?_, ?_⟩
    · intro j q j' q' hq hq' h1 h2 h3 h4
      exfalso
      rw [kvDelete_dflt_getPrompt] at hq
      have hm := mem_candidatesOf_of_default hq h1 h2
      rw [hcand] at hm
      cases hm
    · intro j q hq h1 h2
      exfalso
      rw [kvDelete_dflt_getPrompt] at hq
      have hm := mem_candidatesOf_of_default hq h1 h2
      rw [hcand] at hm
      cases hm
    · intro _
      constructor
      · unfold getDefaultPrompt
        rw [if_pos (by simp [strTruthy, hns])]
        have hid : kvGetId (kvDelete s (.dflt ns)) (.dflt ((some ns).getD "")) = none := by
          simp only [Option.getD_some]
          unfold kvGetId
          rw [kvDelete_dflt_self]
        rw [hid]
      · exact kvDelete_dflt_self s ns
  | cons sel others =>
    obtain ⟨s', hrun, hsel, hmin, hidp, hmap, hgsel, hchar, hflip⟩ :=
      syncDefaultForNamespace_cons_spec now hwf hsort
    have hseldflt := candidatesOf_props hsel
    have hgd : getDefaultPrompt s' (some ns) = some sel := by
      unfold getDefaultPrompt
      rw [if_pos (by simp [strTruthy, hns])]
      have hid : kvGetId s' (.dflt ((some ns).getD "")) = some sel.id := by
        simp only [Option.getD_some]
        exact hmap
      rw [hid]
      have hne : sel.id.isEmpty = false := by
        have hgs : getPrompt s sel.id = some sel := candidatesOf_getPrompt hwf hsel
        have hzero := (storeIdWF_facts hwf hgs).2
        cases hE : sel.id.isEmpty with
        | false => rfl
        | true => exact absurd ((String.isEmpty_iff sel.id).mp hE) hzero
      dsimp only
      rw [if_neg (by simp [hne]), hgsel]
    refine ⟨_, s', hrun, ?_, ?_, ?_⟩
    · intro j q j' q' hq hq' h1 h2 h3 h4
      obtain ⟨hj, hqq⟩ := hchar j q hq h1 h2
      obtain ⟨hj', hqq'⟩ := hchar j' q' hq' h3 h4
      exact ⟨hj.trans hj'.symm, hqq.trans hqq'.symm⟩
    · intro j q hq h1 h2
      obtain ⟨hj, hqq⟩ := hchar j q hq h1 h2
      rw [hgd, hqq]
    · intro hnone
      exfalso
      have hfalse := hnone sel.id sel hgsel hseldflt.1
      rw [hseldflt.2] at hfalse
      cases hfalse

theorem syncDefaultForNamespace_default_exclusive_witness :
    storeIdWF c2Store ∧ ("d" : String).isEmpty = false ∧
    getDefaultPrompt (syncDefaultForNamespace c2Store "d" 30).2 (some "d") = some c2B := by
  refine ⟨by decide, by decide, ?_⟩
  obtain ⟨res, s', hrun, _, hget, _⟩ :=
    syncDefaultForNamespace_default_exclusive c2Store "d" 30 (by decide) (by decide)
  have hs' : (syncDefaultForNamespace c2Store "d" 30).2 = s' := by rw [hrun]
  rw [hs']
  refine hget "B" c2B ?_ (by decide) (by decide)
  rw [← hs']
  decide

/-- C7 (amended: the result field listing the demoted ids is named unset,
matching the source and the JSON the admin sync route serializes — the spec's
name demoted does not occur on the wire).  syncDefaultForNamespace returns
{namespace, id?, unset}: the winner is a candidate no other candidate beats
by higher priority then more recent updatedAt, unset holds the ids of every
other candidate, each demoted to isDefault = false; in the two-default
scenario the result is {namespace: d, id: B, unset: [A]}. -/
theorem syncDefaultForNamespace_result_spec :
    (∀ (s : KVState) (ns : String) (now : Nat), storeIdWF s →
      ∃ res s', syncDefaultForNamespace s ns now = (.ok res, s') ∧
        res.«namespace» = ns ∧
        ((candidatesOf s ns = [] ∧ res.id = none ∧ res.unset = []) ∨
         (∃ w, w ∈ candidatesOf s ns ∧ res.id = some w.id ∧
           (∀ p ∈ candidatesOf s ns,
             p.priority < w.priority ∨
               (p.priority = w.priority ∧ p.updatedAt ≤ w.updatedAt)) ∧
           (w.id :: res.unset).Perm ((candidatesOf s ns).map (fun p => p.id)) ∧
           (∀ i ∈ res.unset, ∃ q, getPrompt s' i = some q ∧ q.isDefault = false)))) ∧
    ((syncDefaultForNamespace c7Store "d" 30).1 =
      .ok { «namespace» := "d", id := some "B", unset := ["A"] }) := by
  refine ⟨?_, by decide⟩
  intro s ns now hwf
  cases hsort : (candidatesOf s ns).insertionSort (fun a b => syncCmp a b ≤ 0) with
  | nil =>
    obtain ⟨hrun, hcand⟩ := syncDefaultForNamespace_nil_spec now hsort
    exact ⟨_, _, hrun, rfl, Or.inl ⟨hcand, rfl, rfl⟩⟩
  | cons sel others =>
    obtain ⟨s', hrun, hsel, hmin, hidp, _, _, _, hflip⟩ :=
      syncDefaultForNamespace_cons_spec now hwf hsort
    refine ⟨_, s', hrun, rfl, Or.inr ⟨sel, hsel, rfl, ?_, hidp, hflip⟩⟩
    intro p hp
    exact syncCmp_nonpos (hmin p hp)

theorem syncDefaultForNamespace_result_spec_witness :
    storeIdWF c7Store ∧
    (∃ res s', syncDefaultForNamespace c7Store "d" 30 = (.ok res, s') ∧
      res.«namespace» = "d") := by
  refine ⟨by decide, ?_⟩
  obtain ⟨res, s', h1, h2, _⟩ :=
    syncDefaultForNamespace_result_spec.1 c7Store "d" 30 (by decide)
  exact ⟨res, s', h1, h2⟩

/-- C7 counterexample to the claim as stated: in the claim's own scenario the
sync result carries the demoted ids under the key unset; the serialized
result object has no demoted field at all. -/
theorem syncResult_field_name_cex :
    (syncDefaultForNamespace c7Store "d" 30).1 =
      .ok { «namespace» := "d", id := some "B", unset := ["A"] } ∧
    (syncResultJson { «namespace» := "d", id := some "B", unset := ["A"] }).find?
      (fun e => e.1 = "demoted") = none ∧
    (syncResultJson { «namespace» := "d", id := some "B", unset := ["A"] }).find?
      (fun e => e.1 = "unset") = some ("unset", .strArr ["A"]) := by decide

